import Mathlib

/-!
Verification of the alienbuster backend core (risk fusion, density scoring,
outbreak lifecycle, task dispatch) against its natural-language specification.

Modelling conventions:
* Python floats are modelled as exact rationals (`ℚ`); the claims under test
  are about the algebraic structure of the computations, not float rounding.
* The saturating density curve uses the real exponential (`Real.exp`), the
  mathematical function that `math.exp` implements.
* Great-circle (haversine) distances are transcendental, so functions that
  only compare distances against thresholds take the distance function as an
  explicit parameter `d`; theorems that need metric facts (symmetry,
  `d p p = 0`) assume them as hypotheses, which hold for the haversine.
* The sqlite store is modelled as explicit lists of records threaded through
  the state-changing functions; SQL result order is list order (rowid order).
-/

namespace AlienBuster

/-! ## Risk fusion calculator (`backend/fusion.py`, `calculate_risk`) -/

/-- The `components` dict built by `calculate_risk` (fusion.py lines 40-47):
fixed keys ml, density, satellite, reputation, quality, seasonality. -/
structure Components where
  ml : ℚ
  density : ℚ
  satellite : ℚ
  reputation : ℚ
  quality : ℚ
  seasonality : ℚ
deriving DecidableEq, Repr

/-- Return value of `calculate_risk` (fusion.py `FusionResult`). -/
structure FusionResult where
  risk_score : ℚ
  components : Components
  reasons : List String
  recommended_action : String
deriving DecidableEq, Repr

/-- The species names treated as non-invasive/unknown by calibration rule 1
(fusion.py line 54). -/
def nonInvasiveNames : List String := ["unknown", "native", "unknown organism"]

/-- Python `str.lower()` (character-wise lowercasing; the species labels
involved are ASCII, where `Char.toLower` agrees with Python). -/
def lowerStr (s : String) : String := String.mk (s.data.map Char.toLower)

/-- The weighted base score (fusion.py lines 31-38; weights 0.40 / 0.25 /
0.25 / 0.05 / 0.03 / 0.02). -/
def baseScore (ml_confidence report_density satellite_score reputation
    photo_quality seasonality : ℚ) : ℚ :=
  ml_confidence * 0.40 + report_density * 0.25 + satellite_score * 0.25
    + reputation * 0.05 + photo_quality * 0.03 + seasonality * 0.02

/-- The `components` dict (fusion.py lines 40-47). -/
def componentsOf (ml_confidence report_density satellite_score reputation
    photo_quality seasonality : ℚ) : Components :=
  ⟨ml_confidence * 0.40, report_density * 0.25, satellite_score * 0.25,
    reputation * 0.05, photo_quality * 0.03, seasonality * 0.02⟩

/-- Sum of the values of the `components` dict. -/
def sumComponents (c : Components) : ℚ :=
  c.ml + c.density + c.satellite + c.reputation + c.quality + c.seasonality

/-- Calibration rules 1-3 (fusion.py lines 51-68): the elif chain mapping the
base score to `(risk, reasons)`. -/
def calibrate (ml_confidence : ℚ) (is_invasive : Bool) (species : String)
    (report_density satellite_score : ℚ) (risk0 : ℚ) : ℚ × List String :=
  if is_invasive = false ∨ lowerStr species ∈ nonInvasiveNames then
    if 0.30 < risk0 then
      (0.30, ["Capped risk: Species identified as non-invasive or unknown."])
    else (risk0, [])
  else if ml_confidence < 0.60 ∧ satellite_score < 0.4 ∧ report_density < 0.3 then
    if 0.55 < risk0 then
      (0.55,
        ["Capped risk: Low ML confidence without strong satellite or density corroboration."])
    else (risk0, [])
  else if 0.85 < ml_confidence ∧ 0.7 < satellite_score then
    (min 0.99 (risk0 + 0.05),
      ["Boosted risk: High ML confidence corroborated by satellite anomaly."])
  else (risk0, [])

/-- Final clamp `max(0.0, min(1.0, risk))` (fusion.py line 75). -/
def clamp01 (x : ℚ) : ℚ := max 0 (min 1 x)

/-- Recommended action thresholds (fusion.py lines 78-85). -/
def actionFor (risk : ℚ) : String :=
  if 0.80 ≤ risk then "Immediate Verification & Containment Alert"
  else if 0.60 ≤ risk then "Priority Review & Satellite Monitoring"
  else if 0.40 ≤ risk then "Routine Review"
  else "Log & Passive Monitor"

/-- `calculate_risk` (fusion.py lines 11-92): weighted base score, calibration
rules 1-3, informational rule 4, clamp to [0,1], recommended action. -/
def calculate_risk (ml_confidence : ℚ) (is_invasive : Bool) (species : String)
    (report_density satellite_score reputation photo_quality seasonality : ℚ) :
    FusionResult :=
  let risk0 := baseScore ml_confidence report_density satellite_score reputation
    photo_quality seasonality
  let calibrated := calibrate ml_confidence is_invasive species report_density
    satellite_score risk0
  let reasons :=
    if 0.8 < report_density then
      calibrated.2 ++ ["High report density in area suggests active outbreak."]
    else calibrated.2
  let risk := clamp01 calibrated.1
  ⟨risk, componentsOf ml_confidence report_density satellite_score reputation
      photo_quality seasonality,
    reasons, actionFor risk⟩

/-! ### Basic clamp facts -/

theorem clamp01_nonneg (x : ℚ) : 0 ≤ clamp01 x := le_max_left 0 _

theorem clamp01_le_one (x : ℚ) : clamp01 x ≤ 1 :=
  max_le zero_le_one (min_le_left 1 x)

theorem clamp01_le_of_le {x b : ℚ} (hb : 0 ≤ b) (hx : x ≤ b) : clamp01 x ≤ b :=
  max_le hb (le_trans (min_le_right 1 x) hx)

theorem clamp01_eq_self {x : ℚ} (h0 : 0 ≤ x) (h1 : x ≤ 1) : clamp01 x = x := by
  unfold clamp01
  rw [min_eq_right h1, max_eq_right h0]

/-- Projection: the returned risk score is the clamped calibrated score. -/
theorem risk_score_eq (ml_confidence : ℚ) (is_invasive : Bool) (species : String)
    (report_density satellite_score reputation photo_quality seasonality : ℚ) :
    (calculate_risk ml_confidence is_invasive species report_density
      satellite_score reputation photo_quality seasonality).risk_score =
    clamp01 (calibrate ml_confidence is_invasive species report_density
      satellite_score (baseScore ml_confidence report_density satellite_score
        reputation photo_quality seasonality)).1 := rfl

/-- Projection: the returned reasons are the calibration reasons plus the
informational rule-4 reason when report density exceeds 0.8. -/
theorem reasons_eq (ml_confidence : ℚ) (is_invasive : Bool) (species : String)
    (report_density satellite_score reputation photo_quality seasonality : ℚ) :
    (calculate_risk ml_confidence is_invasive species report_density
      satellite_score reputation photo_quality seasonality).reasons =
    (if 0.8 < report_density then
      (calibrate ml_confidence is_invasive species report_density
        satellite_score (baseScore ml_confidence report_density satellite_score
          reputation photo_quality seasonality)).2 ++
        ["High report density in area suggests active outbreak."]
    else (calibrate ml_confidence is_invasive species report_density
      satellite_score (baseScore ml_confidence report_density satellite_score
        reputation photo_quality seasonality)).2) := rfl

/-- Projection: the returned components are the six weighted contributions,
unaffected by the calibration rules. -/
theorem components_eq (ml_confidence : ℚ) (is_invasive : Bool) (species : String)
    (report_density satellite_score reputation photo_quality seasonality : ℚ) :
    (calculate_risk ml_confidence is_invasive species report_density
      satellite_score reputation photo_quality seasonality).components =
    componentsOf ml_confidence report_density satellite_score reputation
      photo_quality seasonality := rfl

/-- When calibration rule 1 applies, the calibrated risk is at most 0.30. -/
theorem calibrate_rule1_le (ml_confidence : ℚ) (is_invasive : Bool)
    (species : String) (report_density satellite_score risk0 : ℚ)
    (h : is_invasive = false ∨ lowerStr species ∈ nonInvasiveNames) :
    (calibrate ml_confidence is_invasive species report_density satellite_score
      risk0).1 ≤ 0.30 := by
  unfold calibrate
  rw [if_pos h]
  split
  · norm_num
  · next hle => exact le_of_not_lt hle

/-- Claim C1: for every input, `calculate_risk` returns a risk score in
[0,1]; and whenever `is_invasive` is false (or the species name lowercases to
unknown/native/unknown organism), the returned risk score is at most 0.30,
regardless of all other inputs. -/
theorem C1_fusion_risk_bounds (ml_confidence : ℚ) (is_invasive : Bool)
    (species : String)
    (report_density satellite_score reputation photo_quality seasonality : ℚ) :
    0 ≤ (calculate_risk ml_confidence is_invasive species report_density
        satellite_score reputation photo_quality seasonality).risk_score ∧
    (calculate_risk ml_confidence is_invasive species report_density
        satellite_score reputation photo_quality seasonality).risk_score ≤ 1 ∧
    ((is_invasive = false ∨ lowerStr species ∈ nonInvasiveNames) →
      (calculate_risk ml_confidence is_invasive species report_density
        satellite_score reputation photo_quality seasonality).risk_score
        ≤ 0.30) := by
  refine ⟨clamp01_nonneg _, clamp01_le_one _, fun h => ?_⟩
  exact clamp01_le_of_le (by norm_num)
    (calibrate_rule1_le ml_confidence is_invasive species report_density
      satellite_score _ h)

/-- The calibration chain on the C2 input: rule 3 fires and boosts 0.635 to
0.685 (below the 0.99 cap). -/
theorem calibrate_kudzu :
    calibrate 0.9 true "kudzu" 0 0.9 (baseScore 0.9 0 0.9 0.5 0.5 0.5) =
    (0.685,
      ["Boosted risk: High ML confidence corroborated by satellite anomaly."]) := by
  have hb : baseScore 0.9 0 0.9 0.5 0.5 0.5 = 0.635 := by norm_num [baseScore]
  unfold calibrate
  rw [hb, if_neg (by decide), if_neg (by norm_num), if_pos (by norm_num)]
  rw [show (0.635 : ℚ) + 0.05 = 0.685 by norm_num, min_eq_right (by norm_num)]

theorem kudzu_risk_value :
    (calculate_risk 0.9 true "kudzu" 0 0.9 0.5 0.5 0.5).risk_score = 0.685 := by
  rw [risk_score_eq, calibrate_kudzu]
  exact clamp01_eq_self (by norm_num) (by norm_num)

/-- Claim C2, counterexample: at ml_confidence 0.9, report_density 0.0,
satellite_score 0.9, is_invasive true, species "kudzu" and the 0.5 defaults,
the returned risk score is exactly 0.685 in exact arithmetic, not
(approximately) 0.635 as the claim states: the claim mis-sums its own
weighted terms (they add to 0.635, not 0.585, before the +0.05 boost). -/
theorem C2_counterexample :
    (calculate_risk 0.9 true "kudzu" 0 0.9 0.5 0.5 0.5).risk_score = 0.685 ∧
    (calculate_risk 0.9 true "kudzu" 0 0.9 0.5 0.5 0.5).risk_score ≠ 0.635 :=
  ⟨kudzu_risk_value, by rw [kudzu_risk_value]; norm_num⟩

/-- Claim C2 as amended: with ml_confidence 0.9, report_density 0.0,
satellite_score 0.9, is_invasive true, species "kudzu" and the 0.5 defaults,
the base weighted score is 0.635, calibration rule 3 (high ML confidence
corroborated by satellite) fires, and the final risk is 0.685 with the boost
reason present in the reasons list. -/
theorem C2_fusion_kudzu_boost :
    baseScore 0.9 0 0.9 0.5 0.5 0.5 = 0.635 ∧
    (calculate_risk 0.9 true "kudzu" 0 0.9 0.5 0.5 0.5).risk_score = 0.685 ∧
    "Boosted risk: High ML confidence corroborated by satellite anomaly." ∈
      (calculate_risk 0.9 true "kudzu" 0 0.9 0.5 0.5 0.5).reasons := by
  refine ⟨by norm_num [baseScore], kudzu_risk_value, ?_⟩
  rw [reasons_eq, if_neg (by norm_num), calibrate_kudzu]
  exact List.mem_singleton.mpr rfl

/-- Claim C10, counterexample: with ml_confidence 1, report_density 1,
satellite_score 1, reputation 1, photo_quality 1, seasonality 0.5 (all within
[0,1]), the base score is exactly 0.99; the boost rule fires (its reason is in
the reasons list) but the +0.05 boost is capped at 0.99, so the returned risk
score still equals the sum of the components, contradicting the claim that the
sum differs from the risk score whenever a cap or boost rule fires. -/
theorem C10_counterexample :
    "Boosted risk: High ML confidence corroborated by satellite anomaly." ∈
      (calculate_risk 1 true "kudzu" 1 1 1 1 0.5).reasons ∧
    (calculate_risk 1 true "kudzu" 1 1 1 1 0.5).risk_score =
      sumComponents (calculate_risk 1 true "kudzu" 1 1 1 1 0.5).components := by
  have hb : baseScore 1 1 1 1 1 0.5 = 0.99 := by norm_num [baseScore]
  have hc : calibrate 1 true "kudzu" 1 1 (baseScore 1 1 1 1 1 0.5) =
      (0.99,
        ["Boosted risk: High ML confidence corroborated by satellite anomaly."]) := by
    unfold calibrate
    rw [hb, if_neg (by decide), if_neg (by norm_num), if_pos (by norm_num)]
    rw [min_eq_left (by norm_num)]
  constructor
  · rw [reasons_eq, if_pos (by norm_num), hc]
    exact List.mem_append_left _ (List.mem_singleton.mpr rfl)
  · rw [risk_score_eq, hc, components_eq]
    have hs : sumComponents (componentsOf 1 1 1 1 1 0.5) = 0.99 := by
      norm_num [sumComponents, componentsOf]
    rw [hs]
    exact clamp01_eq_self (by norm_num) (by norm_num)

/-- Claim C10 as amended: the components dict always records exactly the six
pre-calibration weighted contributions and its values sum to the uncalibrated
base score; calibration never modifies components; when cap rule 1 or cap
rule 2 fires, the returned risk score differs from the sum of components;
when boost rule 3 fires, the returned risk equals min(0.99, sum + 0.05),
which differs from the sum of the components except exactly when that sum is
0.99 (the boost then saturates at the 0.99 cap). -/
theorem C10_components_audit (ml_confidence : ℚ) (is_invasive : Bool)
    (species : String)
    (report_density satellite_score reputation photo_quality seasonality : ℚ)
    (res : FusionResult) (base : ℚ)
    (hres : res = calculate_risk ml_confidence is_invasive species
      report_density satellite_score reputation photo_quality seasonality)
    (hbase : base = baseScore ml_confidence report_density satellite_score
      reputation photo_quality seasonality) :
    res.components = componentsOf ml_confidence report_density satellite_score
        reputation photo_quality seasonality ∧
    sumComponents res.components = base ∧
    ((is_invasive = false ∨ lowerStr species ∈ nonInvasiveNames) →
      0.30 < base → res.risk_score ≠ sumComponents res.components) ∧
    (¬(is_invasive = false ∨ lowerStr species ∈ nonInvasiveNames) →
      (ml_confidence < 0.60 ∧ satellite_score < 0.4 ∧ report_density < 0.3) →
      0.55 < base → res.risk_score ≠ sumComponents res.components) ∧
    (¬(is_invasive = false ∨ lowerStr species ∈ nonInvasiveNames) →
      0.85 < ml_confidence → 0.7 < satellite_score →
      (res.risk_score = sumComponents res.components ↔ base = 0.99)) := by
  subst hres hbase
  have hsum : sumComponents (componentsOf ml_confidence report_density
      satellite_score reputation photo_quality seasonality) =
      baseScore ml_confidence report_density satellite_score reputation
        photo_quality seasonality := by
    unfold sumComponents componentsOf baseScore
    ring
  refine ⟨components_eq _ _ _ _ _ _ _ _, by rw [components_eq, hsum], ?_, ?_, ?_⟩
  · intro h1 hgt
    rw [components_eq, hsum, risk_score_eq]
    unfold calibrate
    rw [if_pos h1, if_pos hgt]
    have : clamp01 (0.30, ["Capped risk: Species identified as non-invasive or unknown."]).1 = 0.30 :=
      clamp01_eq_self (by norm_num) (by norm_num)
    rw [this]
    exact ne_of_lt hgt
  · intro h1 h2 hgt
    rw [components_eq, hsum, risk_score_eq]
    unfold calibrate
    rw [if_neg h1, if_pos h2, if_pos hgt]
    have : clamp01 ((0.55 : ℚ),
        ["Capped risk: Low ML confidence without strong satellite or density corroboration."]).1 = 0.55 :=
      clamp01_eq_self (by norm_num) (by norm_num)
    rw [this]
    exact ne_of_lt hgt
  · intro h1 hml hsat
    rw [components_eq, hsum, risk_score_eq]
    unfold calibrate
    rw [if_neg h1, if_neg (by rintro ⟨hlt, -⟩; linarith), if_pos ⟨hml, hsat⟩]
    set b := baseScore ml_confidence report_density satellite_score reputation
      photo_quality seasonality with hb
    show clamp01 (min 0.99 (b + 0.05)) = b ↔ b = 0.99
    rcases le_or_lt (b + 0.05) 0.99 with hle | hlt
    · rw [min_eq_right hle]
      rcases le_or_lt 0 (b + 0.05) with h0 | h0
      · rw [clamp01_eq_self h0 (by linarith)]
        constructor
        · intro h
          exfalso
          linarith
        · intro h
          exfalso
          linarith
      · have : clamp01 (b + 0.05) = 0 := by
          unfold clamp01
          rw [min_eq_right (by linarith), max_eq_left (by linarith)]
        rw [this]
        constructor
        · intro h
          exfalso
          linarith
        · intro h
          exfalso
          linarith
    · rw [min_eq_left (by linarith)]
      rw [clamp01_eq_self (by norm_num) (by norm_num)]
      exact eq_comm

/-- Witness for C10 at a concrete input: ml_confidence 0.9 with
is_invasive false makes cap rule 1 fire (base 0.41 > 0.30), so the returned
risk score differs from the sum of the components. -/
theorem C10_witness :
    (calculate_risk 0.9 false "kudzu" 0 0 0.5 0.5 0.5).risk_score ≠
      sumComponents (calculate_risk 0.9 false "kudzu" 0 0 0.5 0.5 0.5).components := by
  have h := C10_components_audit 0.9 false "kudzu" 0 0 0.5 0.5 0.5 _ _ rfl rfl
  exact h.2.2.1 (Or.inl rfl) (by norm_num [baseScore])

/-! ## Density scorer (`backend/density.py`, `compute_report_density`) -/

/-- A stored report row as read by the density scorer (creation time and
coordinates). -/
structure DensityRow where
  created_at : ℚ
  lat : ℚ
  lon : ℚ
deriving DecidableEq, Repr

/-- State of the sqlite store behind the density scorer: the database file
may be absent (density.py line 76 checks `db.exists()`), present with rows,
or the sqlite access may raise (there is no handler, so the exception
propagates to the caller). -/
inductive DensityStore where
  | missing : DensityStore
  | rows : List DensityRow → DensityStore
  | failure : DensityStore
deriving DecidableEq, Repr

/-- A store access error surfaced to the caller (an uncaught sqlite
exception). -/
inductive StoreError where
  | unreachable : StoreError
deriving DecidableEq, Repr

/-- The saturating count-to-score mapping with its clamp (density.py lines
100-101): `1 - exp(-count / 3)`, clamped to [0,1]. -/
noncomputable def densityScore (count : ℕ) : ℝ :=
  max 0 (min 1 (1 - Real.exp (-(count : ℝ) / 3)))

/-- The count of qualifying nearby reports: rows from the last `window_days`
(SQL filter `created_at >= cutoff`) whose distance `d` from the query point
is at most `radius_km` (density.py lines 84-97). `d` abstracts the haversine
`_haversine_km(lat, lon, r.lat, r.lon)`. -/
def densityCount (d : ℚ × ℚ → ℚ) (radius_km cutoff : ℚ)
    (rs : List DensityRow) : ℕ :=
  ((rs.filter (fun r => cutoff ≤ r.created_at)).filter
    (fun r => d (r.lat, r.lon) ≤ radius_km)).length

/-- `compute_report_density` (density.py lines 63-103): if the database file
is missing, return `(0, 0.0)` with no error (lines 75-77); an sqlite failure
propagates; otherwise count qualifying rows and map the count through the
saturating curve. -/
noncomputable def compute_report_density (d : ℚ × ℚ → ℚ)
    (radius_km cutoff : ℚ) (store : DensityStore) :
    Except StoreError (ℕ × ℝ) :=
  match store with
  | .missing => .ok (0, 0.0)
  | .failure => .error .unreachable
  | .rows rs =>
      .ok (densityCount d radius_km cutoff rs,
        densityScore (densityCount d radius_km cutoff rs))

/-- The raw saturating curve is already in [0,1), so the clamp is the
identity on it. -/
theorem densityScore_eq_raw (c : ℕ) :
    densityScore c = 1 - Real.exp (-(c : ℝ) / 3) := by
  unfold densityScore
  have hpos : 0 < Real.exp (-(c : ℝ) / 3) := Real.exp_pos _
  have hle : Real.exp (-(c : ℝ) / 3) ≤ 1 := by
    calc Real.exp (-(c : ℝ) / 3) ≤ Real.exp 0 := by
          apply Real.exp_le_exp.mpr
          have : (0 : ℝ) ≤ (c : ℝ) := Nat.cast_nonneg c
          linarith
      _ = 1 := Real.exp_zero
  rw [min_eq_right (by linarith), max_eq_right (by linarith)]

/-- Claim C6: for every count c of qualifying nearby reports, the density
score returned by compute_report_density is `1 - exp(-c/3)`, which lies in
[0,1), is strictly monotone in c, and is exactly 0 at c = 0. -/
theorem C6_density_curve :
    (∀ (d : ℚ × ℚ → ℚ) (radius_km cutoff : ℚ) (rs : List DensityRow),
      compute_report_density d radius_km cutoff (.rows rs) =
        .ok (densityCount d radius_km cutoff rs,
          1 - Real.exp (-(densityCount d radius_km cutoff rs : ℝ) / 3))) ∧
    (∀ c : ℕ, 0 ≤ densityScore c ∧ densityScore c < 1) ∧
    StrictMono densityScore ∧
    densityScore 0 = 0 := by
  refine ⟨?_, ?_, ?_, ?_⟩
  · intro d radius_km cutoff rs
    show Except.ok (densityCount d radius_km cutoff rs,
      densityScore (densityCount d radius_km cutoff rs)) = _
    rw [densityScore_eq_raw]
  · intro c
    rw [densityScore_eq_raw]
    have hpos : 0 < Real.exp (-(c : ℝ) / 3) := Real.exp_pos _
    have hle : Real.exp (-(c : ℝ) / 3) ≤ 1 := by
      calc Real.exp (-(c : ℝ) / 3) ≤ Real.exp 0 := by
            apply Real.exp_le_exp.mpr
            have : (0 : ℝ) ≤ (c : ℝ) := Nat.cast_nonneg c
            linarith
        _ = 1 := Real.exp_zero
    constructor <;> linarith
  · intro a b hab
    rw [densityScore_eq_raw, densityScore_eq_raw]
    have : Real.exp (-(b : ℝ) / 3) < Real.exp (-(a : ℝ) / 3) := by
      apply Real.exp_lt_exp.mpr
      have : (a : ℝ) < (b : ℝ) := Nat.cast_lt.mpr hab
      linarith
    linarith
  · rw [densityScore_eq_raw]
    norm_num [Real.exp_zero]

/-- Claim C7, failing path: when the database file is absent (the store is
unreachable at the configured path), density.py returns count 0 and score
0.0 with no error, exactly the silent zero-density result the claim rules
out; an actual sqlite exception does propagate. -/
theorem C7_missing_store_silent_zero (d : ℚ × ℚ → ℚ)
    (radius_km cutoff : ℚ) :
    compute_report_density d radius_km cutoff .missing = .ok (0, 0.0) ∧
    compute_report_density d radius_km cutoff .failure =
      .error .unreachable := ⟨rfl, rfl⟩

/-! ## Report creation (`backend/main.py` `create_report` +
`backend/db.py` `insert_report`) -/

/-- The request body of POST /report (main.py `CreateReportRequest`): lat and
lon are plain floats with no range constraint. -/
structure CreateReportRequest where
  user_id : String
  lat : ℚ
  lon : ℚ
  species : String
  ml_confidence : ℚ
  is_invasive : Bool
  description : Option String
  photo_path : Option String
  photo_url : Option String
  notes : Option String
deriving DecidableEq, Repr

/-- A report row as stored by `insert_report` (the fields `create_report`
computes; `insert_report` performs a plain INSERT of the given values). -/
structure StoredReport where
  created_at : ℚ
  user_id : String
  lat : ℚ
  lon : ℚ
  species : String
  ml_confidence : ℚ
  is_invasive : Bool
  status : String
  report_density : ℚ
  satellite_score : ℚ
  fused_risk : ℚ
deriving DecidableEq, Repr

/-- `create_report` (main.py lines 238-309): derive the satellite score from
the external satellite signal, fuse, pick the status, and insert the report.
The externally supplied signals (satellite ok/anomaly flags, density score)
are parameters. Neither this handler nor `insert_report` (db.py lines
428-444) validates the coordinates: the function is total and stores
`req.lat` / `req.lon` unchanged. -/
def create_report (sat_ok sat_anomaly : Bool) (density_score : ℚ) (now : ℚ)
    (req : CreateReportRequest) (reports : List StoredReport) :
    StoredReport × List StoredReport :=
  let sat_score : ℚ :=
    if sat_ok then min 1 (if sat_anomaly then 0.8 else 0.2) else 0.2
  let risk_res := calculate_risk req.ml_confidence req.is_invasive req.species
    density_score sat_score 0.5
    (if req.photo_path.isSome ∨ req.photo_url.isSome then 0.8 else 0.5) 0.5
  let status0 := "unverified"
  let status1 :=
    if 0.4 < req.ml_confidence ∧ req.ml_confidence < 0.7 then "pending_review"
    else status0
  let status :=
    if 0.7 < risk_res.risk_score then "pending_review" else status1
  let rep : StoredReport :=
    ⟨now, req.user_id, req.lat, req.lon, req.species, req.ml_confidence,
      req.is_invasive, status, density_score, sat_score, risk_res.risk_score⟩
  (rep, reports ++ [rep])

/-- Claim C8, failing behaviour: `create_report` stores the request
coordinates unchanged for every input (no validation, no clamping, no error
path — the function is total), and in particular a request with latitude 200
(outside [-90, 90]) is accepted and stored with latitude 200. -/
theorem C8_no_geometry_validation :
    (∀ (sat_ok sat_anomaly : Bool) (density_score now : ℚ)
      (req : CreateReportRequest) (reports : List StoredReport),
      (create_report sat_ok sat_anomaly density_score now req reports).1.lat
          = req.lat ∧
      (create_report sat_ok sat_anomaly density_score now req reports).1.lon
          = req.lon ∧
      (create_report sat_ok sat_anomaly density_score now req reports).2
          = reports ++
            [(create_report sat_ok sat_anomaly density_score now req
              reports).1]) ∧
    ((create_report false false 0 0
        ⟨"u1", 200, 0, "kudzu", 0.9, true, none, none, none, none⟩ []).1.lat
      = 200 ∧
     ¬((create_report false false 0 0
        ⟨"u1", 200, 0, "kudzu", 0.9, true, none, none, none, none⟩ []).1.lat
      ≤ 90)) := by
  refine ⟨fun uo ua ds now req reports => ⟨rfl, rfl, rfl⟩, rfl, ?_⟩
  show ¬(200 : ℚ) ≤ 90
  norm_num

/-! ## Outbreak and task records (`backend/db.py` tables) -/

/-- Outbreak lifecycle status (strings in the outbreaks table). -/
inductive OStatus where
  | watch
  | investigating
  | confirmed
  | resolved
deriving DecidableEq, Repr

/-- An outbreak row (db.py outbreaks table). -/
structure Outbreak where
  oid : ℕ
  species : String
  created_at : ℚ
  updated_at : ℚ
  centroid_lat : ℚ
  centroid_lon : ℚ
  radius_km : ℚ
  num_reports : ℕ
  mean_risk : ℚ
  ndvi_anomaly_rate : ℚ
  status : OStatus
deriving DecidableEq, Repr

/-- Task status (strings in the tasks table); `opened` stands for the
source string "open", a reserved word in Lean. -/
inductive TStatus where
  | opened
  | in_progress
  | resolved
deriving DecidableEq, Repr

/-- Task priority strings. -/
inductive TPriority where
  | critical
  | high
  | normal
deriving DecidableEq, Repr

/-- A task row (db.py tasks table; the fields the dispatcher touches). -/
structure Task where
  tid : ℕ
  outbreak_id : Option ℕ
  report_id : Option ℕ
  assigned_to : String
  agency : String
  priority : TPriority
  status : TStatus
  created_at : ℚ
  notes : String
deriving DecidableEq, Repr

/-! ## Task dispatcher (`backend/tasks.py`,
`auto_create_tasks_from_outbreaks`) -/

/-- Candidate selection (tasks.py lines 38-45): status IN
(investigating, confirmed) AND mean_risk >= 0.75. -/
def taskCandidate (ob : Outbreak) : Bool :=
  (ob.status == OStatus.investigating || ob.status == OStatus.confirmed)
    && decide ((0.75 : ℚ) ≤ ob.mean_risk)

/-- The per-outbreak existence check (tasks.py lines 52-55): a task with
`outbreak_id = oid AND status != 'resolved'`. -/
def liveTaskFor (oid : ℕ) (t : Task) : Bool :=
  t.outbreak_id == some oid && !(t.status == TStatus.resolved)

/-- The task INSERT (tasks.py lines 60-74): priority critical when mean risk
is at least 0.9 else high, status open, static routing, auto-generated notes
(the f-string is abstracted by the `mkNotes` parameter). -/
def newTask (mkNotes : String → ℚ → ℚ → ℚ → String) (now : ℚ) (nid : ℕ)
    (ob : Outbreak) : Task :=
  ⟨nid, some ob.oid, none, "field_team_alpha", "Local Environmental Dept",
    if (0.9 : ℚ) ≤ ob.mean_risk then TPriority.critical else TPriority.high,
    TStatus.opened, now,
    mkNotes ob.species ob.mean_risk ob.centroid_lat ob.centroid_lon⟩

/-- The dispatcher loop over the candidate outbreaks (tasks.py lines 50-74):
skip a candidate that already has a non-resolved task (the check sees tasks
inserted earlier in the same loop), else insert a new open task. -/
def dispatchGo (mkNotes : String → ℚ → ℚ → ℚ → String) (now : ℚ) :
    List Outbreak → List Task → ℕ → ℕ → List Task × ℕ
  | [], tasks, count, _ => (tasks, count)
  | ob :: rest, tasks, count, nid =>
    if tasks.any (liveTaskFor ob.oid) then
      dispatchGo mkNotes now rest tasks count nid
    else
      dispatchGo mkNotes now rest (tasks ++ [newTask mkNotes now nid ob])
        (count + 1) (nid + 1)

/-- `auto_create_tasks_from_outbreaks` (tasks.py lines 28-79): run the
dispatcher loop over the selected candidates; returns the updated tasks
table and the created count. -/
def auto_create_tasks_from_outbreaks (mkNotes : String → ℚ → ℚ → ℚ → String)
    (now : ℚ) (nextId : ℕ) (obs : List Outbreak) (tasks : List Task) :
    List Task × ℕ :=
  dispatchGo mkNotes now (obs.filter taskCandidate) tasks 0 nextId

/-- The dispatcher loop only appends to the tasks table. -/
theorem dispatchGo_append (mkNotes : String → ℚ → ℚ → ℚ → String) (now : ℚ) :
    ∀ (cands : List Outbreak) (tasks : List Task) (count nid : ℕ),
    ∃ extra, (dispatchGo mkNotes now cands tasks count nid).1 = tasks ++ extra
  | [], tasks, count, nid => ⟨[], by simp [dispatchGo]⟩
  | ob :: rest, tasks, count, nid => by
    unfold dispatchGo
    split
    · exact dispatchGo_append mkNotes now rest tasks count nid
    · obtain ⟨extra, hx⟩ := dispatchGo_append mkNotes now rest
        (tasks ++ [newTask mkNotes now nid ob]) (count + 1) (nid + 1)
      exact ⟨newTask mkNotes now nid ob :: extra, by simp [hx]⟩

/-- If some task in the table is live for outbreak id `X`, the loop adds no
further task for `X`: the tasks with `outbreak_id = X` are unchanged. -/
theorem dispatchGo_no_second_task (mkNotes : String → ℚ → ℚ → ℚ → String)
    (now : ℚ) (X : ℕ) :
    ∀ (cands : List Outbreak) (tasks : List Task) (count nid : ℕ),
    (∃ t ∈ tasks, liveTaskFor X t = true) →
    (dispatchGo mkNotes now cands tasks count nid).1.filter
        (fun t => t.outbreak_id == some X) =
      tasks.filter (fun t => t.outbreak_id == some X)
  | [], tasks, count, nid, _ => by simp [dispatchGo]
  | ob :: rest, tasks, count, nid, hlive => by
    unfold dispatchGo
    split
    · exact dispatchGo_no_second_task mkNotes now X rest tasks count nid hlive
    · next hnone =>
      have hne : ob.oid ≠ X := by
        intro h
        subst h
        obtain ⟨t, ht, hl⟩ := hlive
        exact hnone (List.any_eq_true.mpr ⟨t, ht, hl⟩)
      have hstep := dispatchGo_no_second_task mkNotes now X rest
        (tasks ++ [newTask mkNotes now nid ob]) (count + 1) (nid + 1)
        (by obtain ⟨t, ht, hl⟩ := hlive; exact ⟨t, by simp [ht], hl⟩)
      rw [hstep, List.filter_append]
      have : (newTask mkNotes now nid ob).outbreak_id = some ob.oid := rfl
      simp [this, hne]

/-- After the loop runs, every candidate it visited has a live task. -/
theorem dispatchGo_all_live (mkNotes : String → ℚ → ℚ → ℚ → String)
    (now : ℚ) :
    ∀ (cands : List Outbreak) (tasks : List Task) (count nid : ℕ),
    ∀ ob ∈ cands,
    ∃ t ∈ (dispatchGo mkNotes now cands tasks count nid).1,
      liveTaskFor ob.oid t = true
  | [], _, _, _, ob, hob => absurd hob (List.not_mem_nil ob)
  | ob₀ :: rest, tasks, count, nid, ob, hob => by
    unfold dispatchGo
    rcases List.mem_cons.mp hob with rfl | hmem
    · split
      · next hany =>
        obtain ⟨t, ht, hl⟩ := List.any_eq_true.mp hany
        obtain ⟨extra, hx⟩ := dispatchGo_append mkNotes now rest tasks count nid
        exact ⟨t, by rw [hx]; exact List.mem_append_left _ ht, hl⟩
      · obtain ⟨extra, hx⟩ := dispatchGo_append mkNotes now rest
          (tasks ++ [newTask mkNotes now nid ob]) (count + 1) (nid + 1)
        refine ⟨newTask mkNotes now nid ob, by rw [hx]; simp, ?_⟩
        simp [liveTaskFor, newTask]
    · split
      · exact dispatchGo_all_live mkNotes now rest tasks count nid ob hmem
      · exact dispatchGo_all_live mkNotes now rest
          (tasks ++ [newTask mkNotes now nid ob₀]) (count + 1) (nid + 1) ob hmem

/-- When every candidate already has a live task, the loop is a no-op. -/
theorem dispatchGo_noop (mkNotes : String → ℚ → ℚ → ℚ → String) (now : ℚ) :
    ∀ (cands : List Outbreak) (tasks : List Task) (nid : ℕ),
    (∀ ob ∈ cands, ∃ t ∈ tasks, liveTaskFor ob.oid t = true) →
    dispatchGo mkNotes now cands tasks 0 nid = (tasks, 0)
  | [], tasks, nid, _ => by simp [dispatchGo]
  | ob :: rest, tasks, nid, hall => by
    unfold dispatchGo
    have hany : tasks.any (liveTaskFor ob.oid) = true :=
      List.any_eq_true.mpr (by
        obtain ⟨t, ht, hl⟩ := hall ob (List.mem_cons_self ob rest)
        exact ⟨t, ht, hl⟩)
    rw [if_pos hany]
    exact dispatchGo_noop mkNotes now rest tasks nid
      (fun o ho => hall o (List.mem_cons_of_mem ob ho))

/-- Claim C5: the task dispatcher never creates a second non-resolved task
for the same outbreak: (i) for any outbreak id that already has a
non-resolved task in the table, a dispatcher run adds no task for that id
(regardless of the outbreak list, so also across calls with fluctuating mean
risk); and (ii) re-running the dispatcher on its own output with the same
outbreak table creates zero tasks and leaves the tasks unchanged. -/
theorem C5_dispatcher_idempotent (mkNotes mkNotes2 : String → ℚ → ℚ → ℚ → String)
    (now now2 : ℚ) (nextId nextId2 : ℕ) (obs : List Outbreak)
    (tasks : List Task) :
    (∀ X : ℕ, (∃ t ∈ tasks, liveTaskFor X t = true) →
      (auto_create_tasks_from_outbreaks mkNotes now nextId obs tasks).1.filter
          (fun t => t.outbreak_id == some X) =
        tasks.filter (fun t => t.outbreak_id == some X)) ∧
    auto_create_tasks_from_outbreaks mkNotes2 now2 nextId2 obs
        (auto_create_tasks_from_outbreaks mkNotes now nextId obs tasks).1 =
      ((auto_create_tasks_from_outbreaks mkNotes now nextId obs tasks).1, 0) := by
  constructor
  · intro X hlive
    exact dispatchGo_no_second_task mkNotes now X (obs.filter taskCandidate)
      tasks 0 nextId hlive
  · exact dispatchGo_noop mkNotes2 now2 (obs.filter taskCandidate) _ nextId2
      (fun ob hob => dispatchGo_all_live mkNotes now (obs.filter taskCandidate)
        tasks 0 nextId ob hob)

/-- Witness for C5 at a concrete input: one qualifying outbreak, a first run
that creates its task, and a second run that creates nothing. -/
theorem C5_witness :
    auto_create_tasks_from_outbreaks (fun _ _ _ _ => "n") 1 7
        [⟨3, "kudzu", 0, 0, 10, 20, 1, 4, 0.8, 0.5, OStatus.investigating⟩]
        (auto_create_tasks_from_outbreaks (fun _ _ _ _ => "n") 0 5
          [⟨3, "kudzu", 0, 0, 10, 20, 1, 4, 0.8, 0.5, OStatus.investigating⟩]
          []).1 =
      ((auto_create_tasks_from_outbreaks (fun _ _ _ _ => "n") 0 5
          [⟨3, "kudzu", 0, 0, 10, 20, 1, 4, 0.8, 0.5, OStatus.investigating⟩]
          []).1, 0) :=
  (C5_dispatcher_idempotent (fun _ _ _ _ => "n") (fun _ _ _ _ => "n") 0 1 5 7
    [⟨3, "kudzu", 0, 0, 10, 20, 1, 4, 0.8, 0.5, OStatus.investigating⟩] []).2

/-! ## Dominant species selection (`backend/outbreaks.py` line 80,
`max(set(species_list), key=species_list.count)`) -/

/-- Python `max(iterable, key=f)`: iterate, keeping the current best and
replacing it only on a strictly greater key — so the first element with
maximal key in iteration order wins. `none` on an empty iteration. -/
def pyMaxBy (f : String → ℕ) : List String → Option String
  | [] => none
  | x :: xs => some (xs.foldl (fun best y => if f best < f y then y else best) x)

/-- `e` enumerates the Python set of the elements of `l`: duplicate-free and
with exactly the members of `l`. CPython iterates a set of strings in a
hash-dependent, implementation-defined order, so the enumeration order is a
parameter of the model, constrained only by this predicate. -/
def isSetEnum (e l : List String) : Prop := e.Nodup ∧ e ⊆ l ∧ l ⊆ e

instance (e l : List String) : Decidable (isSetEnum e l) := by
  unfold isSetEnum
  infer_instance

/-- `main_species = max(set(species_list), key=species_list.count)`
(outbreaks.py line 80), with `setEnum` giving the set iteration order. -/
def mainSpecies (setEnum : List String → List String) (l : List String) :
    Option String :=
  pyMaxBy (fun s => l.count s) (setEnum l)

/-- The foldl inside `pyMaxBy` returns an element of the inputs whose key is
greatest (the first such in iteration order). -/
theorem foldl_pyMax_spec (f : String → ℕ) :
    ∀ (xs : List String) (x : String),
    (xs.foldl (fun best y => if f best < f y then y else best) x) ∈ x :: xs ∧
    f x ≤ f (xs.foldl (fun best y => if f best < f y then y else best) x) ∧
    ∀ y ∈ xs, f y ≤ f (xs.foldl (fun best y => if f best < f y then y else best) x)
  | [], x => ⟨List.mem_singleton.mpr rfl, le_refl _, by intro y hy; cases hy⟩
  | y :: ys, x => by
    have ih := foldl_pyMax_spec f ys (if f x < f y then y else x)
    obtain ⟨hmem, hle, hall⟩ := ih
    simp only [List.foldl_cons]
    refine ⟨?_, ?_, ?_⟩
    · rcases List.mem_cons.mp hmem with h | h
      · rw [h]
        split
        · exact List.mem_cons_of_mem x (List.mem_cons_self y ys)
        · exact List.mem_cons_self x (y :: ys)
      · exact List.mem_cons_of_mem x (List.mem_cons_of_mem y h)
    · refine le_trans ?_ hle
      split
      · next hlt => exact le_of_lt hlt
      · exact le_refl _
    · intro z hz
      rcases List.mem_cons.mp hz with rfl | hz
      · refine le_trans ?_ hle
        split
        · exact le_refl _
        · next hnlt => exact le_of_not_lt hnlt
      · exact hall z hz

/-- Claim C9 as amended: for every cluster, the dominant species returned by
`max(set(species_list), key=species_list.count)` is a member species of
greatest member count, for every possible set enumeration order; ties are
broken by the set iteration order (hash-dependent), not by first occurrence
in cluster scan order. -/
theorem C9_dominant_species_plurality (setEnum : List String → List String)
    (l : List String) (h : isSetEnum (setEnum l) l) (hne : l ≠ []) :
    ∃ s, mainSpecies setEnum l = some s ∧ s ∈ l ∧
      ∀ t ∈ l, l.count t ≤ l.count s := by
  obtain ⟨hnd, hsub, hsup⟩ := h
  obtain ⟨a, as, ha⟩ : ∃ a as, setEnum l = a :: as := by
    cases hl : setEnum l with
    | nil =>
      obtain ⟨x, hx⟩ := List.exists_mem_of_ne_nil l hne
      have := hsup hx
      rw [hl] at this
      cases this
    | cons a as => exact ⟨a, as, rfl⟩
  obtain ⟨hmem, -, hall⟩ := foldl_pyMax_spec (fun s => l.count s) as a
  refine ⟨as.foldl (fun best y => if l.count best < l.count y then y else best) a,
    ?_, ?_, ?_⟩
  · unfold mainSpecies pyMaxBy
    rw [ha]
  · refine hsub ?_
    rw [ha]
    exact hmem
  · intro t ht
    have htE : t ∈ setEnum l := hsup ht
    rw [ha] at htE
    rcases List.mem_cons.mp htE with rfl | htE
    · exact (foldl_pyMax_spec (fun s => l.count s) as t).2.1
    · exact hall t htE

/-- Claim C9, counterexample: the species list ["b", "a"] (scan order: "b"
first) with the valid set enumeration ["a", "b"] makes the code return "a"
even though the two species tie at count 1 and the earliest-scanned tied
member is "b" — so the tie is not broken by first occurrence in cluster scan
order. -/
theorem C9_counterexample :
    isSetEnum ["a", "b"] ["b", "a"] ∧
    List.count "a" ["b", "a"] = List.count "b" ["b", "a"] ∧
    mainSpecies (fun _ => ["a", "b"]) ["b", "a"] = some "a" ∧
    (["b", "a"] : List String).head? = some "b" ∧ ("a" : String) ≠ "b" := by
  refine ⟨by decide, by decide, ?_, rfl, by decide⟩
  decide

/-- Witness for C9 at a concrete input: the singleton cluster ["x"] with the
only possible set enumeration. -/
theorem C9_witness :
    ∃ s, mainSpecies (fun _ => ["x"]) ["x"] = some s ∧ s ∈ ["x"] ∧
      ∀ t ∈ (["x"] : List String), List.count t ["x"] ≤ List.count s ["x"] := by
  have h := C9_dominant_species_plurality (fun _ => ["x"]) ["x"]
    (by decide) (by decide)
  obtain ⟨s, h1, h2, h3⟩ := h
  exact ⟨s, h1, h2, fun t ht => h3 t ht⟩

/-! ## DBSCAN clustering

outbreaks.py lines 38-49 run sklearn `DBSCAN(eps=2 km, min_samples=3,
metric='haversine', algorithm='ball_tree')` over the qualifying report
coordinates. The model below follows sklearn's `dbscan_inner`: points are
scanned in index order; an unlabelled core point seeds a new cluster that is
grown breadth-first, labelling every reachable still-unlabelled point; border
points keep the label of the first cluster that claims them. The
neighbourhood function `nb` abstracts `radius_neighbors` (for point `i`, the
indices within eps of point `i`, including `i` itself). Labels are integers
with -1 for noise/unvisited, as in sklearn. -/

/-- Core point check: at least `min_samples = 3` neighbours (the
neighbourhood of a point contains the point itself). -/
def isCore (nb : ℕ → List ℕ) (i : ℕ) : Prop := 3 ≤ (nb i).length

instance (nb : ℕ → List ℕ) (i : ℕ) : Decidable (isCore nb i) := by
  unfold isCore
  infer_instance

/-- Number of still-unlabelled points (used as the termination measure of
the expansion loop). -/
def unlabeledCount (n : ℕ) (labels : ℕ → ℤ) : ℕ :=
  ((Finset.range n).filter (fun j => labels j = -1)).card

/-- sklearn `dbscan_inner`'s breadth-first expansion of one cluster with
label `lab`: pop a point from the stack; if it is still unlabelled, label it
and, when it is a core point, push its still-unlabelled neighbours. The
`w < n` guard is redundant in sklearn (all indices are in range) and only
bounds the termination measure. -/
def expand (n : ℕ) (nb : ℕ → List ℕ) (lab : ℕ) :
    (ℕ → ℤ) → List ℕ → (ℕ → ℤ)
  | labels, [] => labels
  | labels, w :: rest =>
    if h : w < n ∧ labels w = -1 then
      let labels2 := Function.update labels w (lab : ℤ)
      let pushes :=
        if isCore nb w then (nb w).filter (fun u => decide (labels2 u = -1))
        else []
      expand n nb lab labels2 (rest ++ pushes)
    else
      expand n nb lab labels rest
termination_by labels stack => (unlabeledCount n labels, stack.length)
decreasing_by
  · apply Prod.Lex.left
    unfold unlabeledCount
    have hw : w ∈ (Finset.range n).filter (fun j => labels j = -1) :=
      Finset.mem_filter.mpr ⟨Finset.mem_range.mpr h.1, h.2⟩
    have hsub : (Finset.range n).filter
        (fun j => Function.update labels w (lab : ℤ) j = -1) ⊆
        ((Finset.range n).filter (fun j => labels j = -1)).erase w := by
      intro j hj
      rw [Finset.mem_filter] at hj
      rcases eq_or_ne j w with rfl | hne
      · rw [Function.update_same] at hj
        exact absurd hj.2 (by omega)
      · refine Finset.mem_erase.mpr ⟨hne, Finset.mem_filter.mpr ⟨hj.1, ?_⟩⟩
        have := hj.2
        rwa [Function.update_noteq hne] at this
    exact lt_of_le_of_lt (Finset.card_le_card hsub)
      (Finset.card_erase_lt_of_mem hw)
  · apply Prod.Lex.right
    simp

/-- The outer seed loop of DBSCAN: scan points in index order; an unlabelled
core point seeds cluster `next` and the label counter increments. Returns
the final labelling and the number of clusters. -/
def dbscanGo (n : ℕ) (nb : ℕ → List ℕ) : ℕ → (ℕ → ℤ) → ℕ → (ℕ → ℤ) × ℕ
  | i, labels, next =>
    if _h : i < n then
      if labels i = -1 ∧ isCore nb i then
        dbscanGo n nb (i + 1) (expand n nb next labels [i]) (next + 1)
      else
        dbscanGo n nb (i + 1) labels next
    else (labels, next)
termination_by i _ _ => n - i
decreasing_by
  · omega
  · omega

/-- `DBSCAN(...).fit(coords).labels_`: all points start unlabelled. -/
def dbscan (n : ℕ) (nb : ℕ → List ℕ) : (ℕ → ℤ) × ℕ :=
  dbscanGo n nb 0 (fun _ => -1) 0

/-- Size of the cluster with label `m`. -/
def memberCount (n : ℕ) (labels : ℕ → ℤ) (m : ℕ) : ℕ :=
  ((Finset.range n).filter (fun j => labels j = (m : ℤ))).card

/-- Labelling an unlabelled in-range point decreases the number of
unlabelled points. -/
theorem unlabeledCount_update_lt (n : ℕ) (labels : ℕ → ℤ) (w : ℕ) (lab : ℕ)
    (hwn : w < n) (hw : labels w = -1) :
    unlabeledCount n (Function.update labels w (lab : ℤ)) <
      unlabeledCount n labels := by
  unfold unlabeledCount
  have hmem : w ∈ (Finset.range n).filter (fun j => labels j = -1) :=
    Finset.mem_filter.mpr ⟨Finset.mem_range.mpr hwn, hw⟩
  have hsub : (Finset.range n).filter
      (fun j => Function.update labels w (lab : ℤ) j = -1) ⊆
      ((Finset.range n).filter (fun j => labels j = -1)).erase w := by
    intro j hj
    rw [Finset.mem_filter] at hj
    rcases eq_or_ne j w with rfl | hne
    · rw [Function.update_same] at hj
      exact absurd hj.2 (by omega)
    · refine Finset.mem_erase.mpr ⟨hne, Finset.mem_filter.mpr ⟨hj.1, ?_⟩⟩
      have := hj.2
      rwa [Function.update_noteq hne] at this
  exact lt_of_le_of_lt (Finset.card_le_card hsub)
    (Finset.card_erase_lt_of_mem hmem)

theorem expand_nil (n : ℕ) (nb : ℕ → List ℕ) (lab : ℕ) (labels : ℕ → ℤ) :
    expand n nb lab labels [] = labels := by
  unfold expand
  rfl

theorem expand_cons_pos (n : ℕ) (nb : ℕ → List ℕ) (lab : ℕ) (labels : ℕ → ℤ)
    (w : ℕ) (rest : List ℕ) (h : w < n ∧ labels w = -1) :
    expand n nb lab labels (w :: rest) =
      expand n nb lab (Function.update labels w (lab : ℤ))
        (rest ++ (if isCore nb w then
            (nb w).filter
              (fun u => decide (Function.update labels w (lab : ℤ) u = -1))
          else [])) := by
  conv_lhs => rw [expand]
  rw [dif_pos h]

theorem expand_cons_neg (n : ℕ) (nb : ℕ → List ℕ) (lab : ℕ) (labels : ℕ → ℤ)
    (w : ℕ) (rest : List ℕ) (h : ¬(w < n ∧ labels w = -1)) :
    expand n nb lab labels (w :: rest) = expand n nb lab labels rest := by
  conv_lhs => rw [expand]
  rw [dif_neg h]

/-- Expansion never changes an already-assigned label. -/
theorem expand_preserve (n : ℕ) (nb : ℕ → List ℕ) (lab : ℕ) :
    ∀ (labels : ℕ → ℤ) (stack : List ℕ) (j : ℕ), labels j ≠ -1 →
      expand n nb lab labels stack j = labels j
  | labels, [], j, _ => by rw [expand_nil]
  | labels, w :: rest, j, hj => by
    by_cases h : w < n ∧ labels w = -1
    · rw [expand_cons_pos n nb lab labels w rest h]
      have hjw : j ≠ w := fun he => hj (he ▸ h.2)
      have hupd : Function.update labels w (lab : ℤ) j = labels j :=
        Function.update_noteq hjw _ _
      rw [expand_preserve n nb lab _ _ j (by rw [hupd]; exact hj), hupd]
    · rw [expand_cons_neg n nb lab labels w rest h]
      exact expand_preserve n nb lab labels rest j hj
termination_by labels stack _ => (unlabeledCount n labels, stack.length)
decreasing_by
  · exact Prod.Lex.left _ _ (unlabeledCount_update_lt n labels w lab h.1 h.2)
  · exact Prod.Lex.right _ (by simp)

/-- Expansion either keeps a point's label or assigns it `lab`. -/
theorem expand_writes (n : ℕ) (nb : ℕ → List ℕ) (lab : ℕ) :
    ∀ (labels : ℕ → ℤ) (stack : List ℕ) (j : ℕ),
      expand n nb lab labels stack j = labels j ∨
      expand n nb lab labels stack j = (lab : ℤ)
  | labels, [], j => by
    rw [expand_nil]
    exact Or.inl rfl
  | labels, w :: rest, j => by
    by_cases h : w < n ∧ labels w = -1
    · rw [expand_cons_pos n nb lab labels w rest h]
      rcases expand_writes n nb lab (Function.update labels w (lab : ℤ))
        (rest ++ (if isCore nb w then
            (nb w).filter
              (fun u => decide (Function.update labels w (lab : ℤ) u = -1))
          else [])) j with hk | hk
      · rcases eq_or_ne j w with rfl | hjw
        · rw [hk, Function.update_same]
          exact Or.inr rfl
        · rw [hk, Function.update_noteq hjw]
          exact Or.inl rfl
      · exact Or.inr hk
    · rw [expand_cons_neg n nb lab labels w rest h]
      exact expand_writes n nb lab labels rest j
termination_by labels stack _ => (unlabeledCount n labels, stack.length)
decreasing_by
  · exact Prod.Lex.left _ _ (unlabeledCount_update_lt n labels w lab h.1 h.2)
  · exact Prod.Lex.right _ (by simp)

/-- Every in-range point on the stack ends the expansion labelled. -/
theorem expand_stack_labeled (n : ℕ) (nb : ℕ → List ℕ) (lab : ℕ) :
    ∀ (labels : ℕ → ℤ) (stack : List ℕ), ∀ w ∈ stack, w < n →
      expand n nb lab labels stack w ≠ -1
  | labels, [], w, hw, _ => absurd hw (List.not_mem_nil w)
  | labels, w₀ :: rest, w, hw, hwn => by
    by_cases h : w₀ < n ∧ labels w₀ = -1
    · rw [expand_cons_pos n nb lab labels w₀ rest h]
      rcases List.mem_cons.mp hw with rfl | hmem
      · have hupd : Function.update labels w (lab : ℤ) w = (lab : ℤ) :=
          Function.update_same _ _ _
        rw [expand_preserve n nb lab _ _ w (by rw [hupd]; omega), hupd]
        omega
      · exact expand_stack_labeled n nb lab _ _ w
          (List.mem_append_left _ hmem) hwn
    · rw [expand_cons_neg n nb lab labels w₀ rest h]
      rcases List.mem_cons.mp hw with rfl | hmem
      · have hnl : labels w ≠ -1 := fun he => h ⟨hwn, he⟩
        rw [expand_preserve n nb lab labels rest w hnl]
        exact hnl
      · exact expand_stack_labeled n nb lab labels rest w hmem hwn
termination_by labels stack _ _ _ => (unlabeledCount n labels, stack.length)
decreasing_by
  · exact Prod.Lex.left _ _ (unlabeledCount_update_lt n labels w₀ lab h.1 h.2)
  · exact Prod.Lex.right _ (by simp)

/-- Stack invariant for expansion: a labelled core point's neighbours are
labelled or still on the stack. -/
def StInv (n : ℕ) (nb : ℕ → List ℕ) (labels : ℕ → ℤ) (stack : List ℕ) : Prop :=
  ∀ j, j < n → labels j ≠ -1 → isCore nb j → ∀ w ∈ nb j,
    labels w ≠ -1 ∨ w ∈ stack

/-- After a full expansion (empty stack): a labelled core point's neighbours
are all labelled. -/
def EndInv (n : ℕ) (nb : ℕ → List ℕ) (labels : ℕ → ℤ) : Prop :=
  ∀ j, j < n → labels j ≠ -1 → isCore nb j → ∀ w ∈ nb j, labels w ≠ -1

theorem expand_endInv (n : ℕ) (nb : ℕ → List ℕ) (lab : ℕ)
    (hsub : ∀ i j, j ∈ nb i → j < n) :
    ∀ (labels : ℕ → ℤ) (stack : List ℕ), StInv n nb labels stack →
      EndInv n nb (expand n nb lab labels stack)
  | labels, [], hst => by
    rw [expand_nil]
    intro j hjn hj hcore w hw
    rcases hst j hjn hj hcore w hw with hl | hl
    · exact hl
    · cases hl
  | labels, w₀ :: rest, hst => by
    by_cases h : w₀ < n ∧ labels w₀ = -1
    · rw [expand_cons_pos n nb lab labels w₀ rest h]
      apply expand_endInv n nb lab hsub
      intro j hjn hj hcore w hw
      rcases eq_or_ne j w₀ with rfl | hjw
      · by_cases hwlab : Function.update labels j (lab : ℤ) w = -1
        · right
          apply List.mem_append_right
          rw [if_pos hcore]
          exact List.mem_filter.mpr ⟨hw, by simpa using hwlab⟩
        · left
          exact hwlab
      · have hjold : labels j ≠ -1 := by
          rwa [Function.update_noteq hjw] at hj
        rcases hst j hjn hjold hcore w hw with hlab | hmem
        · left
          rcases eq_or_ne w w₀ with rfl | hww
          · rw [Function.update_same]
            omega
          · rwa [Function.update_noteq hww]
        · rcases List.mem_cons.mp hmem with rfl | hr
          · left
            rw [Function.update_same]
            omega
          · right
            exact List.mem_append_left _ hr
    · rw [expand_cons_neg n nb lab labels w₀ rest h]
      apply expand_endInv n nb lab hsub
      intro j hjn hj hcore w hw
      rcases hst j hjn hj hcore w hw with hlab | hmem
      · left
        exact hlab
      · rcases List.mem_cons.mp hmem with rfl | hr
        · left
          intro he
          exact h ⟨hsub j w hw, he⟩
        · right
          exact hr
termination_by labels stack _ => (unlabeledCount n labels, stack.length)
decreasing_by
  · exact Prod.Lex.left _ _ (unlabeledCount_update_lt n labels w₀ lab h.1 h.2)
  · exact Prod.Lex.right _ (by simp)

/-- Sponsor invariant: a labelled non-core point is the neighbour of a core
point that is labelled or still on the stack. -/
def CInv (n : ℕ) (nb : ℕ → List ℕ) (labels : ℕ → ℤ) (stack : List ℕ) : Prop :=
  ∀ j, j < n → labels j ≠ -1 → ¬isCore nb j →
    ∃ z, z < n ∧ isCore nb z ∧ (labels z ≠ -1 ∨ z ∈ stack) ∧ j ∈ nb z

/-- Every stack element is the neighbour of a core point that is labelled or
still on the stack. -/
def SpInv (n : ℕ) (nb : ℕ → List ℕ) (labels : ℕ → ℤ) (stack : List ℕ) : Prop :=
  ∀ w ∈ stack, ∃ z, z < n ∧ isCore nb z ∧ (labels z ≠ -1 ∨ z ∈ stack) ∧
    w ∈ nb z

/-- After a full expansion: a labelled non-core point is the neighbour of a
labelled core point. -/
def NInv (n : ℕ) (nb : ℕ → List ℕ) (labels : ℕ → ℤ) : Prop :=
  ∀ j, j < n → labels j ≠ -1 → ¬isCore nb j →
    ∃ z, z < n ∧ isCore nb z ∧ labels z ≠ -1 ∧ j ∈ nb z

theorem expand_NInv (n : ℕ) (nb : ℕ → List ℕ) (lab : ℕ) :
    ∀ (labels : ℕ → ℤ) (stack : List ℕ), CInv n nb labels stack →
      SpInv n nb labels stack → NInv n nb (expand n nb lab labels stack)
  | labels, [], hc, _ => by
    rw [expand_nil]
    intro j hjn hj hncore
    obtain ⟨z, hzn, hzc, hzl, hznb⟩ := hc j hjn hj hncore
    rcases hzl with hzl | hzl
    · exact ⟨z, hzn, hzc, hzl, hznb⟩
    · cases hzl
  | labels, w₀ :: rest, hc, hsp => by
    by_cases h : w₀ < n ∧ labels w₀ = -1
    · rw [expand_cons_pos n nb lab labels w₀ rest h]
      have promote : ∀ z, (labels z ≠ -1 ∨ z ∈ w₀ :: rest) →
          (Function.update labels w₀ (lab : ℤ) z ≠ -1 ∨
            z ∈ rest ++ (if isCore nb w₀ then
              (nb w₀).filter
                (fun u => decide (Function.update labels w₀ (lab : ℤ) u = -1))
            else [])) := by
        intro z hz
        rcases eq_or_ne z w₀ with rfl | hzw
        · left
          rw [Function.update_same]
          omega
        · rcases hz with hz | hz
          · left
            rwa [Function.update_noteq hzw]
          · rcases List.mem_cons.mp hz with rfl | hz
            · exact absurd rfl hzw
            · right
              exact List.mem_append_left _ hz
      apply expand_NInv n nb lab
      · intro j hjn hj hncore
        rcases eq_or_ne j w₀ with rfl | hjw
        · obtain ⟨z, hzn, hzc, hzl, hznb⟩ :=
            hsp j (List.mem_cons_self j rest)
          exact ⟨z, hzn, hzc, promote z hzl, hznb⟩
        · have hjold : labels j ≠ -1 := by
            rwa [Function.update_noteq hjw] at hj
          obtain ⟨z, hzn, hzc, hzl, hznb⟩ := hc j hjn hjold hncore
          exact ⟨z, hzn, hzc, promote z hzl, hznb⟩
      · intro w hw
        rcases List.mem_append.mp hw with hw | hw
        · obtain ⟨z, hzn, hzc, hzl, hznb⟩ :=
            hsp w (List.mem_cons_of_mem w₀ hw)
          exact ⟨z, hzn, hzc, promote z hzl, hznb⟩
        · by_cases hcw : isCore nb w₀
          · rw [if_pos hcw] at hw
            refine ⟨w₀, h.1, hcw, Or.inl ?_, (List.mem_filter.mp hw).1⟩
            rw [Function.update_same]
            omega
          · rw [if_neg hcw] at hw
            cases hw
    · rw [expand_cons_neg n nb lab labels w₀ rest h]
      have demote : ∀ z, z < n → (labels z ≠ -1 ∨ z ∈ w₀ :: rest) →
          (labels z ≠ -1 ∨ z ∈ rest) := by
        intro z hzn hz
        rcases hz with hz | hz
        · exact Or.inl hz
        · rcases List.mem_cons.mp hz with rfl | hz
          · exact Or.inl (fun he => h ⟨hzn, he⟩)
          · exact Or.inr hz
      apply expand_NInv n nb lab
      · intro j hjn hj hncore
        obtain ⟨z, hzn, hzc, hzl, hznb⟩ := hc j hjn hj hncore
        exact ⟨z, hzn, hzc, demote z hzn hzl, hznb⟩
      · intro w hw
        obtain ⟨z, hzn, hzc, hzl, hznb⟩ :=
          hsp w (List.mem_cons_of_mem w₀ hw)
        exact ⟨z, hzn, hzc, demote z hzn hzl, hznb⟩
termination_by labels stack _ _ => (unlabeledCount n labels, stack.length)
decreasing_by
  · exact Prod.Lex.left _ _ (unlabeledCount_update_lt n labels w₀ lab h.1 h.2)
  · exact Prod.Lex.right _ (by simp)

theorem dbscanGo_stop (n : ℕ) (nb : ℕ → List ℕ) (i : ℕ) (labels : ℕ → ℤ)
    (next : ℕ) (h : ¬i < n) : dbscanGo n nb i labels next = (labels, next) := by
  conv_lhs => rw [dbscanGo]
  rw [dif_neg h]

theorem dbscanGo_seed (n : ℕ) (nb : ℕ → List ℕ) (i : ℕ) (labels : ℕ → ℤ)
    (next : ℕ) (h : i < n) (hseed : labels i = -1 ∧ isCore nb i) :
    dbscanGo n nb i labels next =
      dbscanGo n nb (i + 1) (expand n nb next labels [i]) (next + 1) := by
  conv_lhs => rw [dbscanGo]
  rw [dif_pos h, if_pos hseed]

theorem dbscanGo_skip (n : ℕ) (nb : ℕ → List ℕ) (i : ℕ) (labels : ℕ → ℤ)
    (next : ℕ) (h : i < n) (hns : ¬(labels i = -1 ∧ isCore nb i)) :
    dbscanGo n nb i labels next = dbscanGo n nb (i + 1) labels next := by
  conv_lhs => rw [dbscanGo]
  rw [dif_pos h, if_neg hns]

/-- Cluster sizes only grow under pointwise label preservation. -/
theorem memberCount_mono (n : ℕ) (labels labels2 : ℕ → ℤ) (m : ℕ)
    (h : ∀ j, labels j = (m : ℤ) → labels2 j = (m : ℤ)) :
    memberCount n labels m ≤ memberCount n labels2 m := by
  apply Finset.card_le_card
  intro j hj
  rw [Finset.mem_filter] at hj ⊢
  exact ⟨hj.1, h j hj.2⟩

/-- A duplicate-free list of in-range points all carrying label `m` bounds
the size of cluster `m` from below. -/
theorem le_memberCount_of_list (n : ℕ) (labels : ℕ → ℤ) (m : ℕ)
    (l : List ℕ) (hnd : l.Nodup) (hsub : ∀ j ∈ l, j < n)
    (hall : ∀ j ∈ l, labels j = (m : ℤ)) :
    l.length ≤ memberCount n labels m := by
  rw [← List.toFinset_card_of_nodup hnd]
  apply Finset.card_le_card
  intro x hx
  rw [List.mem_toFinset] at hx
  exact Finset.mem_filter.mpr ⟨Finset.mem_range.mpr (hsub x hx), hall x hx⟩

/-- A cluster of size at least 3 is inhabited. -/
theorem memberCount_exists (n : ℕ) (labels : ℕ → ℤ) (m : ℕ)
    (h : 3 ≤ memberCount n labels m) : ∃ j, j < n ∧ labels j = (m : ℤ) := by
  have : 0 < memberCount n labels m := by omega
  obtain ⟨j, hj⟩ := Finset.card_pos.mp this
  rw [Finset.mem_filter, Finset.mem_range] at hj
  exact ⟨j, hj.1, hj.2⟩

/-- At seed time (under the standing invariants), the whole neighbourhood of
the seed is still unlabelled: a previously labelled neighbour would either be
a labelled core point whose neighbourhood (containing the seed) is fully
labelled, or a non-core point that together with the seed and its sponsor
gives it three distinct neighbours, making it core — both impossible. This is
where `min_samples = 3` is essential. -/
theorem seed_nb_unlabeled (n : ℕ) (nb : ℕ → List ℕ)
    (hsym : ∀ i j, i < n → j < n → (j ∈ nb i ↔ i ∈ nb j))
    (hrefl : ∀ i, i < n → i ∈ nb i)
    (hsub : ∀ i j, j ∈ nb i → j < n)
    (hnodup : ∀ i, (nb i).Nodup)
    (labels : ℕ → ℤ) (hend : EndInv n nb labels) (hnin : NInv n nb labels)
    (i : ℕ) (hin : i < n) (hiu : labels i = -1) (hic : isCore nb i) :
    ∀ w ∈ nb i, labels w = -1 := by
  intro w hw
  by_contra hlw
  have hwn : w < n := hsub i w hw
  have hiw : i ∈ nb w := (hsym i w hin hwn).mp hw
  by_cases hcw : isCore nb w
  · exact hend w hwn hlw hcw i hiw hiu
  · obtain ⟨z, hzn, hzc, hzl, hznb⟩ := hnin w hwn hlw hcw
    have hzw : z ∈ nb w := (hsym z w hzn hwn).mp hznb
    have hww : w ∈ nb w := hrefl w hwn
    have hzi : z ≠ i := fun he => hzl (he ▸ hiu)
    have hzww : z ≠ w := fun he => hcw (he ▸ hzc)
    have hiww : i ≠ w := fun he => hlw (he ▸ hiu)
    apply hcw
    have hsubf : ({z, i, w} : Finset ℕ) ⊆ (nb w).toFinset := by
      intro x hx
      rw [List.mem_toFinset]
      rcases Finset.mem_insert.mp hx with rfl | hx
      · exact hzw
      · rcases Finset.mem_insert.mp hx with rfl | hx
        · exact hiw
        · rw [Finset.mem_singleton] at hx
          exact hx ▸ hww
    have hcard : ({z, i, w} : Finset ℕ).card = 3 := by
      rw [Finset.card_insert_of_not_mem (by simp [hzi, hzww]),
        Finset.card_insert_of_not_mem (by simp [hiww]),
        Finset.card_singleton]
    unfold isCore
    calc 3 = ({z, i, w} : Finset ℕ).card := hcard.symm
      _ ≤ (nb w).toFinset.card := Finset.card_le_card hsubf
      _ = (nb w).length := List.toFinset_card_of_nodup (hnodup w)

/-- One seeding phase: the invariants persist, old labels persist, and every
neighbour of the seed joins the new cluster `next`. -/
theorem expand_phase (n : ℕ) (nb : ℕ → List ℕ) (next : ℕ)
    (hsym : ∀ i j, i < n → j < n → (j ∈ nb i ↔ i ∈ nb j))
    (hrefl : ∀ i, i < n → i ∈ nb i)
    (hsub : ∀ i j, j ∈ nb i → j < n)
    (hnodup : ∀ i, (nb i).Nodup)
    (labels : ℕ → ℤ) (hend : EndInv n nb labels) (hnin : NInv n nb labels)
    (i : ℕ) (hin : i < n) (hiu : labels i = -1) (hic : isCore nb i) :
    EndInv n nb (expand n nb next labels [i]) ∧
    NInv n nb (expand n nb next labels [i]) ∧
    (∀ j, labels j ≠ -1 → expand n nb next labels [i] j = labels j) ∧
    (∀ w ∈ nb i, expand n nb next labels [i] w = (next : ℤ)) := by
  have hst : StInv n nb labels [i] := by
    intro j hjn hj hcore w hw
    exact Or.inl (hend j hjn hj hcore w hw)
  have hci : CInv n nb labels [i] := by
    intro j hjn hj hncore
    obtain ⟨z, hzn, hzc, hzl, hznb⟩ := hnin j hjn hj hncore
    exact ⟨z, hzn, hzc, Or.inl hzl, hznb⟩
  have hsp : SpInv n nb labels [i] := by
    intro w hw
    rw [List.mem_singleton] at hw
    subst hw
    exact ⟨w, hin, hic, Or.inr (List.mem_singleton.mpr rfl), hrefl w hin⟩
  have hend2 := expand_endInv n nb next hsub labels [i] hst
  have hnin2 := expand_NInv n nb next labels [i] hci hsp
  refine ⟨hend2, hnin2, expand_preserve n nb next labels [i], ?_⟩
  intro w hw
  have hwu : labels w = -1 :=
    seed_nb_unlabeled n nb hsym hrefl hsub hnodup labels hend hnin i hin hiu
      hic w hw
  have hfin : expand n nb next labels [i] i ≠ -1 :=
    expand_stack_labeled n nb next labels [i] i (List.mem_singleton.mpr rfl)
      hin
  have hwl : expand n nb next labels [i] w ≠ -1 :=
    hend2 i hin hfin hic w hw
  rcases expand_writes n nb next labels [i] w with hk | hk
  · rw [hk] at hwl
    exact absurd hwu hwl
  · exact hk

/-- Outer-loop induction: every cluster the scan has opened (and will open)
ends with at least `min_samples = 3` members, and assigned labels persist. -/
theorem dbscanGo_spec (n : ℕ) (nb : ℕ → List ℕ)
    (hsym : ∀ i j, i < n → j < n → (j ∈ nb i ↔ i ∈ nb j))
    (hrefl : ∀ i, i < n → i ∈ nb i)
    (hsub : ∀ i j, j ∈ nb i → j < n)
    (hnodup : ∀ i, (nb i).Nodup) :
    ∀ (i : ℕ) (labels : ℕ → ℤ) (next : ℕ),
    EndInv n nb labels → NInv n nb labels →
    (∀ m : ℕ, m < next → 3 ≤ memberCount n labels m) →
    (∀ m : ℕ, m < (dbscanGo n nb i labels next).2 →
      3 ≤ memberCount n (dbscanGo n nb i labels next).1 m) ∧
    (∀ j, labels j ≠ -1 → (dbscanGo n nb i labels next).1 j = labels j)
  | i, labels, next => by
    intro hend hnin hcnt
    by_cases hi : i < n
    · by_cases hseed : labels i = -1 ∧ isCore nb i
      · rw [dbscanGo_seed n nb i labels next hi hseed]
        obtain ⟨hend2, hnin2, hpres, hclus⟩ := expand_phase n nb next hsym
          hrefl hsub hnodup labels hend hnin i hi hseed.1 hseed.2
        have hcnt2 : ∀ m : ℕ, m < next + 1 →
            3 ≤ memberCount n (expand n nb next labels [i]) m := by
          intro m hm
          rcases Nat.lt_or_ge m next with hmn | hmn
          · refine le_trans (hcnt m hmn) (memberCount_mono n _ _ m ?_)
            intro j hj
            rw [hpres j (by rw [hj]; exact (by omega)), hj]
          · have hmeq : m = next := by omega
            subst hmeq
            exact le_trans hseed.2 (le_memberCount_of_list n _ _ (nb i)
              (hnodup i) (fun j hj => hsub i j hj) hclus)
        obtain ⟨ih1, ih2⟩ := dbscanGo_spec n nb hsym hrefl hsub hnodup
          (i + 1) (expand n nb next labels [i]) (next + 1) hend2 hnin2 hcnt2
        refine ⟨ih1, ?_⟩
        intro j hj
        rw [ih2 j (by rw [hpres j hj]; exact hj), hpres j hj]
      · rw [dbscanGo_skip n nb i labels next hi hseed]
        exact dbscanGo_spec n nb hsym hrefl hsub hnodup (i + 1) labels next
          hend hnin hcnt
    · rw [dbscanGo_stop n nb i labels next hi]
      exact ⟨hcnt, fun j _ => rfl⟩
termination_by i _ _ => n - i
decreasing_by
  · omega
  · omega

/-- Every cluster produced by DBSCAN with `min_samples = 3` has at least 3
members (under the metric facts: symmetric neighbourhoods containing their
own point, in range and duplicate-free). -/
theorem dbscan_cluster_size (n : ℕ) (nb : ℕ → List ℕ)
    (hsym : ∀ i j, i < n → j < n → (j ∈ nb i ↔ i ∈ nb j))
    (hrefl : ∀ i, i < n → i ∈ nb i)
    (hsub : ∀ i j, j ∈ nb i → j < n)
    (hnodup : ∀ i, (nb i).Nodup) :
    ∀ m : ℕ, m < (dbscan n nb).2 → 3 ≤ memberCount n (dbscan n nb).1 m := by
  have h := dbscanGo_spec n nb hsym hrefl hsub hnodup 0 (fun _ => -1) 0
    (fun j _ hj => absurd rfl hj)
    (fun j _ hj => absurd rfl hj)
    (fun m hm => absurd hm (Nat.not_lt_zero m))
  exact h.1

/-- With no core point in range, the scan seeds nothing. -/
theorem dbscanGo_nocore (n : ℕ) (nb : ℕ → List ℕ)
    (hnc : ∀ j, j < n → ¬isCore nb j) :
    ∀ (i : ℕ) (labels : ℕ → ℤ) (next : ℕ),
      dbscanGo n nb i labels next = (labels, next)
  | i, labels, next => by
    by_cases hi : i < n
    · rw [dbscanGo_skip n nb i labels next hi (fun hc => hnc i hi hc.2)]
      exact dbscanGo_nocore n nb hnc (i + 1) labels next
    · exact dbscanGo_stop n nb i labels next hi
termination_by i _ _ => n - i
decreasing_by
  · omega

/-! ## Outbreak lifecycle manager (`backend/outbreaks.py`,
`recompute_outbreaks`) -/

/-- A report row as read by the recompute pass (outbreaks.py lines 21-30:
id, lat, lon, species, fused_risk, ndvi_anomaly plus the query filters). -/
structure Report where
  lat : ℚ
  lon : ℚ
  species : String
  fused_risk : ℚ
  ndvi_anomaly : Bool
  is_invasive : Bool
  created_at : ℚ
deriving DecidableEq, Repr

/-- The SQL filter (outbreaks.py lines 24-27): created in the last 60 days
(`created_at >= cutoff`), invasive, fused risk at least 0.70. -/
def qualifies (cutoff : ℚ) (r : Report) : Bool :=
  decide (cutoff ≤ r.created_at) && r.is_invasive &&
    decide ((0.70 : ℚ) ≤ r.fused_risk)

/-- Neighbourhoods for DBSCAN over the report coordinates: indices within
eps of point `i`. The code converts to radians and uses eps =
2.0 / 6371.0088 with the haversine metric, i.e. a 2 km great-circle
threshold; `d` abstracts that distance in km. -/
def nbOf (d : ℚ × ℚ → ℚ × ℚ → ℚ) (pts : List (ℚ × ℚ)) (i : ℕ) : List ℕ :=
  (List.range pts.length).filter
    (fun j => decide (d (pts.getD i (0, 0)) (pts.getD j (0, 0)) ≤ 2))

theorem nbOf_mem (d : ℚ × ℚ → ℚ × ℚ → ℚ) (pts : List (ℚ × ℚ)) (i j : ℕ) :
    j ∈ nbOf d pts i ↔
      j < pts.length ∧ d (pts.getD i (0, 0)) (pts.getD j (0, 0)) ≤ 2 := by
  simp [nbOf, List.mem_filter, List.mem_range]

theorem nbOf_sub (d : ℚ × ℚ → ℚ × ℚ → ℚ) (pts : List (ℚ × ℚ)) :
    ∀ i j, j ∈ nbOf d pts i → j < pts.length :=
  fun i j hj => ((nbOf_mem d pts i j).mp hj).1

theorem nbOf_nodup (d : ℚ × ℚ → ℚ × ℚ → ℚ) (pts : List (ℚ × ℚ)) :
    ∀ i, (nbOf d pts i).Nodup :=
  fun _ => List.Nodup.filter _ (List.nodup_range _)

theorem nbOf_refl (d : ℚ × ℚ → ℚ × ℚ → ℚ) (pts : List (ℚ × ℚ))
    (hrefl : ∀ p, d p p = 0) :
    ∀ i, i < pts.length → i ∈ nbOf d pts i := by
  intro i hi
  refine (nbOf_mem d pts i i).mpr ⟨hi, ?_⟩
  rw [hrefl]
  norm_num

theorem nbOf_symm (d : ℚ × ℚ → ℚ × ℚ → ℚ) (pts : List (ℚ × ℚ))
    (hsym : ∀ p q, d p q = d q p) :
    ∀ i j, i < pts.length → j < pts.length →
      (j ∈ nbOf d pts i ↔ i ∈ nbOf d pts j) := by
  intro i j hi hj
  rw [nbOf_mem, nbOf_mem, hsym]
  constructor
  · rintro ⟨-, h⟩
    exact ⟨hi, h⟩
  · rintro ⟨-, h⟩
    exact ⟨hj, h⟩

/-- Placeholder row for out-of-range indexing (never reached on the index
sets used). -/
def dummyReport : Report := ⟨0, 0, "", 0, false, false, 0⟩

/-- The reports of cluster `m`, in scan (index) order (outbreaks.py
lines 61-62). -/
def clusterMembers (qs : List Report) (labels : ℕ → ℤ) (m : ℕ) :
    List Report :=
  ((List.range qs.length).filter (fun j => decide (labels j = (m : ℤ)))).map
    (fun j => qs.getD j dummyReport)

/-- The per-cluster aggregates (outbreaks.py lines 64-84). -/
structure ClusterStats where
  species : String
  centroid_lat : ℚ
  centroid_lon : ℚ
  radius_km : ℚ
  num_reports : ℕ
  mean_risk : ℚ
  anomaly_rate : ℚ
deriving DecidableEq, Repr

/-- Compute the aggregates of cluster `m`: arithmetic-mean centroid, max
distance radius (via `dM`, the `_haversine_km` distance), dominant species
by count over the set enumeration, mean risk and anomaly rate. -/
def clusterStats (dM : ℚ × ℚ → ℚ × ℚ → ℚ)
    (setEnum : List String → List String) (qs : List Report)
    (labels : ℕ → ℤ) (m : ℕ) : ClusterStats :=
  let members := clusterMembers qs labels m
  let clat := (members.map (fun r => r.lat)).sum / (members.length : ℚ)
  let clon := (members.map (fun r => r.lon)).sum / (members.length : ℚ)
  let radius := members.foldl
    (fun acc r => max acc (dM (clat, clon) (r.lat, r.lon))) 0
  let sp := (mainSpecies setEnum (members.map (fun r => r.species))).getD ""
  let mean := (members.map (fun r => r.fused_risk)).sum / (members.length : ℚ)
  let rate := (members.map (fun r => if r.ndvi_anomaly then (1 : ℚ) else 0)).sum
    / (members.length : ℚ)
  ⟨sp, clat, clon, radius, members.length, mean, rate⟩

/-- The merge-candidate filter (outbreaks.py lines 87-94): same species,
status in (watch, investigating, confirmed). -/
def activeOutbreak (sp : String) (ob : Outbreak) : Bool :=
  ob.species == sp && (ob.status == OStatus.watch ||
    ob.status == OStatus.investigating || ob.status == OStatus.confirmed)

/-- The distance check of the merge loop (outbreaks.py lines 97-103):
strictly less than 5 km between centroids. -/
def withinMerge (dM : ℚ × ℚ → ℚ × ℚ → ℚ) (c : ClusterStats)
    (ob : Outbreak) : Bool :=
  decide (dM (c.centroid_lat, c.centroid_lon)
    (ob.centroid_lat, ob.centroid_lon) < 5)

/-- The merge loop: first candidate (in table order) within 5 km, if any. -/
def findMergeTarget (dM : ℚ × ℚ → ℚ × ℚ → ℚ) (c : ClusterStats)
    (obs : List Outbreak) : Option Outbreak :=
  (obs.filter (activeOutbreak c.species)).find? (withinMerge dM c)

/-- The UPDATE branch (outbreaks.py lines 106-117): replace updated_at,
centroid, radius, member count, mean risk and anomaly rate; id, species,
created_at and status are untouched. -/
def mergeUpdate (now : ℚ) (c : ClusterStats) (ob : Outbreak) : Outbreak :=
  ⟨ob.oid, ob.species, ob.created_at, now, c.centroid_lat, c.centroid_lon,
    c.radius_km, c.num_reports, c.mean_risk, c.anomaly_rate, ob.status⟩

/-- The INSERT branch (outbreaks.py lines 119-127): a fresh outbreak with
status `investigating`. -/
def newOutbreak (now : ℚ) (nid : ℕ) (c : ClusterStats) : Outbreak :=
  ⟨nid, c.species, now, now, c.centroid_lat, c.centroid_lon, c.radius_km,
    c.num_reports, c.mean_risk, c.anomaly_rate, OStatus.investigating⟩

/-- State threaded through the per-cluster loop: current outbreaks table and
the created/updated counters, plus the next fresh row id. -/
structure RState where
  obs : List Outbreak
  created : ℕ
  updated : ℕ
  nextId : ℕ
deriving DecidableEq, Repr

/-- Process one cluster (outbreaks.py lines 86-127): update the first
active same-species outbreak within 5 km in place, else insert a new
`investigating` outbreak. -/
def processCluster (dM : ℚ × ℚ → ℚ × ℚ → ℚ) (now : ℚ) (c : ClusterStats)
    (st : RState) : RState :=
  match findMergeTarget dM c st.obs with
  | some ob =>
      ⟨st.obs.map (fun x => if x.oid = ob.oid then mergeUpdate now c x else x),
        st.created, st.updated + 1, st.nextId⟩
  | none =>
      ⟨st.obs ++ [newOutbreak now st.nextId c], st.created + 1, st.updated,
        st.nextId + 1⟩

/-- The per-cluster loop over the DBSCAN labels (outbreaks.py lines 55-127).
The Python code iterates `set(labels)` skipping -1; the non-noise labels are
exactly 0..k-1 (CPython enumerates this set of small ints in increasing
order). -/
def recomputeClusters (d dM : ℚ × ℚ → ℚ × ℚ → ℚ)
    (setEnum : List String → List String) (now : ℚ) (qs : List Report)
    (obs : List Outbreak) (nextId : ℕ) : RState :=
  let pts := qs.map (fun r => (r.lat, r.lon))
  let res := dbscan qs.length (nbOf d pts)
  (List.range res.2).foldl
    (fun st m => processCluster dM now (clusterStats dM setEnum qs res.1 m) st)
    ⟨obs, 0, 0, nextId⟩

/-- `recompute_outbreaks` (outbreaks.py lines 12-133): select qualifying
reports; on an empty selection return `(0, 0)` (lines 32-33); otherwise
cluster with DBSCAN and run the per-cluster merge-or-create loop. Returns
the outbreaks table plus (outbreaks_created, outbreaks_updated). -/
def recompute_outbreaks (d dM : ℚ × ℚ → ℚ × ℚ → ℚ)
    (setEnum : List String → List String) (cutoff now : ℚ) (nextId : ℕ)
    (reports : List Report) (obs : List Outbreak) :
    List Outbreak × ℕ × ℕ :=
  let qs := reports.filter (qualifies cutoff)
  if qs.isEmpty then (obs, 0, 0)
  else
    let final := recomputeClusters d dM setEnum now qs obs nextId
    (final.obs, final.created, final.updated)

/-- Claim C3: for every cluster processed by the recompute pass, when some
existing outbreak of the same species with status in (watch, investigating,
confirmed) has its centroid within 5 km (the code checks `dist < 5.0`) of
the new cluster centroid, that outbreak (the first such in table order) is
updated in place — its centroid, radius, member count, mean risk and anomaly
rate replaced by the newly computed values, its id/species/status/created_at
untouched — and nothing is inserted; otherwise a new outbreak with status
`investigating` carrying the cluster stats is inserted. -/
theorem C3_merge_or_create (dM : ℚ × ℚ → ℚ × ℚ → ℚ) (now : ℚ)
    (c : ClusterStats) (st : RState) :
    ((∃ ob ∈ st.obs, activeOutbreak c.species ob = true ∧
        withinMerge dM c ob = true) →
      ∃ ob ∈ st.obs, activeOutbreak c.species ob = true ∧
        withinMerge dM c ob = true ∧
        processCluster dM now c st =
          ⟨st.obs.map
              (fun x => if x.oid = ob.oid then mergeUpdate now c x else x),
            st.created, st.updated + 1, st.nextId⟩) ∧
    ((∀ ob ∈ st.obs, ¬(activeOutbreak c.species ob = true ∧
        withinMerge dM c ob = true)) →
      processCluster dM now c st =
        ⟨st.obs ++ [newOutbreak now st.nextId c], st.created + 1, st.updated,
          st.nextId + 1⟩) ∧
    (∀ ob : Outbreak,
      (mergeUpdate now c ob).centroid_lat = c.centroid_lat ∧
      (mergeUpdate now c ob).centroid_lon = c.centroid_lon ∧
      (mergeUpdate now c ob).radius_km = c.radius_km ∧
      (mergeUpdate now c ob).num_reports = c.num_reports ∧
      (mergeUpdate now c ob).mean_risk = c.mean_risk ∧
      (mergeUpdate now c ob).ndvi_anomaly_rate = c.anomaly_rate ∧
      (mergeUpdate now c ob).updated_at = now ∧
      (mergeUpdate now c ob).oid = ob.oid ∧
      (mergeUpdate now c ob).species = ob.species ∧
      (mergeUpdate now c ob).created_at = ob.created_at ∧
      (mergeUpdate now c ob).status = ob.status) ∧
    ((newOutbreak now st.nextId c).status = OStatus.investigating ∧
      (newOutbreak now st.nextId c).species = c.species ∧
      (newOutbreak now st.nextId c).centroid_lat = c.centroid_lat ∧
      (newOutbreak now st.nextId c).centroid_lon = c.centroid_lon ∧
      (newOutbreak now st.nextId c).radius_km = c.radius_km ∧
      (newOutbreak now st.nextId c).num_reports = c.num_reports ∧
      (newOutbreak now st.nextId c).mean_risk = c.mean_risk ∧
      (newOutbreak now st.nextId c).ndvi_anomaly_rate = c.anomaly_rate) := by
  refine ⟨?_, ?_, ?_, ?_⟩
  · intro hex
    have hsome : ∃ ob,
        (st.obs.filter (activeOutbreak c.species)).find? (withinMerge dM c) =
          some ob := by
      rw [← Option.isSome_iff_exists, List.find?_isSome]
      obtain ⟨ob, hmem, hact, hwit⟩ := hex
      exact ⟨ob, List.mem_filter.mpr ⟨hmem, hact⟩, hwit⟩
    obtain ⟨ob, hfind⟩ := hsome
    have hmem := List.mem_filter.mp (List.mem_of_find?_eq_some hfind)
    refine ⟨ob, hmem.1, hmem.2, List.find?_some hfind, ?_⟩
    unfold processCluster findMergeTarget
    rw [hfind]
  · intro hnone
    have hfind : (st.obs.filter (activeOutbreak c.species)).find?
        (withinMerge dM c) = none := by
      rw [List.find?_eq_none]
      intro x hx
      have hm := List.mem_filter.mp hx
      intro hw
      exact hnone x hm.1 ⟨hm.2, hw⟩
    unfold processCluster findMergeTarget
    rw [hfind]
  · intro ob
    exact ⟨rfl, rfl, rfl, rfl, rfl, rfl, rfl, rfl, rfl, rfl, rfl⟩
  · exact ⟨rfl, rfl, rfl, rfl, rfl, rfl, rfl, rfl⟩

/-- Witness for C3 at a concrete input: a single active same-species
outbreak within merge distance is updated in place. -/
theorem C3_witness :
    processCluster (fun _ _ => 0) 1 ⟨"kudzu", 3, 4, 1, 4, 0.9, 0.25⟩
        ⟨[⟨1, "kudzu", 0, 0, 10, 20, 2, 3, 0.8, 0.5, OStatus.watch⟩], 0, 0, 5⟩ =
      ⟨[⟨1, "kudzu", 0, 1, 3, 4, 1, 4, 0.9, 0.25, OStatus.watch⟩], 0, 1, 5⟩ := by
  have h := (C3_merge_or_create (fun _ _ => 0) 1 ⟨"kudzu", 3, 4, 1, 4, 0.9, 0.25⟩
    ⟨[⟨1, "kudzu", 0, 0, 10, 20, 2, 3, 0.8, 0.5, OStatus.watch⟩], 0, 0, 5⟩).1
  obtain ⟨ob, hmem, -, -, heq⟩ := h ⟨⟨1, "kudzu", 0, 0, 10, 20, 2, 3, 0.8, 0.5,
    OStatus.watch⟩, List.mem_singleton.mpr rfl, rfl, by
      simp only [withinMerge]
      norm_num⟩
  have hob : ob = ⟨1, "kudzu", 0, 0, 10, 20, 2, 3, 0.8, 0.5, OStatus.watch⟩ :=
    List.mem_singleton.mp hmem
  subst hob
  rw [heq]
  rfl

/-- Bridge between the list-level index filter and the Finset cluster
cardinality. -/
theorem length_filter_range_eq_card (nn : ℕ) (p : ℕ → Prop)
    [DecidablePred p] :
    ((List.range nn).filter (fun j => decide (p j))).length =
      ((Finset.range nn).filter p).card := by
  induction nn with
  | zero => simp
  | succ k ih =>
    rw [List.range_succ, List.filter_append, List.length_append,
      Finset.range_succ, Finset.filter_insert]
    by_cases hp : p k
    · rw [if_pos hp, Finset.card_insert_of_not_mem (by simp)]
      simp [hp, ih]
    · rw [if_neg hp]
      simp [hp, ih]

/-- The member count stored on a cluster is its DBSCAN cluster size. -/
theorem clusterStats_num (dM : ℚ × ℚ → ℚ × ℚ → ℚ)
    (setEnum : List String → List String) (qs : List Report)
    (labels : ℕ → ℤ) (m : ℕ) :
    (clusterStats dM setEnum qs labels m).num_reports =
      memberCount qs.length labels m := by
  show (clusterMembers qs labels m).length = _
  unfold clusterMembers memberCount
  rw [List.length_map]
  exact length_filter_range_eq_card qs.length (fun j => labels j = (m : ℤ))

/-- Processing one cluster of size at least 3 preserves the property that
every table row is an original row or has at least 3 members. -/
theorem processCluster_preserves (dM : ℚ × ℚ → ℚ × ℚ → ℚ) (now : ℚ)
    (c : ClusterStats) (st : RState) (obs0 : List Outbreak)
    (hP : ∀ x ∈ st.obs, x ∈ obs0 ∨ 3 ≤ x.num_reports)
    (hc : 3 ≤ c.num_reports) :
    ∀ x ∈ (processCluster dM now c st).obs, x ∈ obs0 ∨ 3 ≤ x.num_reports := by
  intro x hx
  unfold processCluster at hx
  cases hfind : findMergeTarget dM c st.obs with
  | some ob =>
    rw [hfind] at hx
    obtain ⟨y, hy, hxy⟩ := List.mem_map.mp hx
    by_cases hid : y.oid = ob.oid
    · rw [if_pos hid] at hxy
      right
      rw [← hxy]
      exact hc
    · rw [if_neg hid] at hxy
      exact hxy ▸ hP y hy
  | none =>
    rw [hfind] at hx
    rcases List.mem_append.mp hx with hx | hx
    · exact hP x hx
    · right
      rw [List.mem_singleton.mp hx]
      exact hc

/-- The cluster loop preserves the same property. -/
theorem foldl_process_preserves (d dM : ℚ × ℚ → ℚ × ℚ → ℚ)
    (setEnum : List String → List String) (now : ℚ) (qs : List Report)
    (labels : ℕ → ℤ) (obs0 : List Outbreak) :
    ∀ (ms : List ℕ) (st : RState),
    (∀ x ∈ st.obs, x ∈ obs0 ∨ 3 ≤ x.num_reports) →
    (∀ m ∈ ms, 3 ≤ (clusterStats dM setEnum qs labels m).num_reports) →
    ∀ x ∈ (ms.foldl (fun st m =>
        processCluster dM now (clusterStats dM setEnum qs labels m) st)
      st).obs, x ∈ obs0 ∨ 3 ≤ x.num_reports
  | [], st, hP, _ => hP
  | m :: ms, st, hP, hms => by
    rw [List.foldl_cons]
    exact foldl_process_preserves d dM setEnum now qs labels obs0 ms _
      (processCluster_preserves dM now _ st obs0 hP
        (hms m (List.mem_cons_self m ms)))
      (fun m2 hm2 => hms m2 (List.mem_cons_of_mem m hm2))

/-- When the label count is zero, the cluster loop is skipped and the pass
changes nothing. -/
theorem recomputeClusters_zero (d dM : ℚ × ℚ → ℚ × ℚ → ℚ)
    (setEnum : List String → List String) (now : ℚ) (qs : List Report)
    (obs : List Outbreak) (nextId : ℕ)
    (h : (dbscan qs.length
      (nbOf d (qs.map (fun r => (r.lat, r.lon))))).2 = 0) :
    recomputeClusters d dM setEnum now qs obs nextId = ⟨obs, 0, 0, nextId⟩ := by
  unfold recomputeClusters
  show (List.range (dbscan qs.length
      (nbOf d (qs.map (fun r => (r.lat, r.lon))))).2).foldl _ _ = _
  rw [h]
  rfl

theorem recompute_outbreaks_eq (d dM : ℚ × ℚ → ℚ × ℚ → ℚ)
    (setEnum : List String → List String) (cutoff now : ℚ) (nextId : ℕ)
    (reports : List Report) (obs : List Outbreak) :
    recompute_outbreaks d dM setEnum cutoff now nextId reports obs =
      (if (reports.filter (qualifies cutoff)).isEmpty then (obs, 0, 0)
       else ((recomputeClusters d dM setEnum now
            (reports.filter (qualifies cutoff)) obs nextId).obs,
          (recomputeClusters d dM setEnum now
            (reports.filter (qualifies cutoff)) obs nextId).created,
          (recomputeClusters d dM setEnum now
            (reports.filter (qualifies cutoff)) obs nextId).updated)) := rfl

theorem recomputeClusters_eq (d dM : ℚ × ℚ → ℚ × ℚ → ℚ)
    (setEnum : List String → List String) (now : ℚ) (qs : List Report)
    (obs : List Outbreak) (nextId : ℕ) :
    recomputeClusters d dM setEnum now qs obs nextId =
      (List.range (dbscan qs.length
          (nbOf d (qs.map (fun r => (r.lat, r.lon))))).2).foldl
        (fun st m => processCluster dM now (clusterStats dM setEnum qs
          (dbscan qs.length
            (nbOf d (qs.map (fun r => (r.lat, r.lon))))).1 m) st)
        ⟨obs, 0, 0, nextId⟩ := rfl

/-- Claim C4: the recompute pass never creates an outbreak from fewer than 3
qualifying reports. (i) With zero qualifying reports the pass is a no-op
returning (created, updated) = (0, 0); (ii) likewise when the clustering
labels every point noise; (iii) a group of exactly 2 qualifying reports
(whatever their positions) produces no outbreak; (iv) every outbreak row
after the pass is either an untouched pre-existing row or carries a member
count of at least 3. Hypotheses: the distance is symmetric and zero on the
diagonal (true of the haversine). -/
theorem C4_min_cluster_size (d dM : ℚ × ℚ → ℚ × ℚ → ℚ)
    (setEnum : List String → List String) (cutoff now : ℚ) (nextId : ℕ)
    (reports : List Report) (obs : List Outbreak)
    (hsymd : ∀ p q, d p q = d q p) (hrefld : ∀ p, d p p = 0) :
    (reports.filter (qualifies cutoff) = [] →
      recompute_outbreaks d dM setEnum cutoff now nextId reports obs =
        (obs, 0, 0)) ∧
    ((∀ j, (dbscan (reports.filter (qualifies cutoff)).length
        (nbOf d ((reports.filter (qualifies cutoff)).map
          (fun r => (r.lat, r.lon))))).1 j = -1) →
      recompute_outbreaks d dM setEnum cutoff now nextId reports obs =
        (obs, 0, 0)) ∧
    ((reports.filter (qualifies cutoff)).length = 2 →
      recompute_outbreaks d dM setEnum cutoff now nextId reports obs =
        (obs, 0, 0)) ∧
    (∀ ob ∈ (recompute_outbreaks d dM setEnum cutoff now nextId reports
        obs).1, ob ∈ obs ∨ 3 ≤ ob.num_reports) := by
  have hlen : ((reports.filter (qualifies cutoff)).map
      (fun r => (r.lat, r.lon))).length =
      (reports.filter (qualifies cutoff)).length := List.length_map _ _
  have hsize : ∀ m, m < (dbscan (reports.filter (qualifies cutoff)).length
      (nbOf d ((reports.filter (qualifies cutoff)).map
        (fun r => (r.lat, r.lon))))).2 →
      3 ≤ memberCount (reports.filter (qualifies cutoff)).length
        (dbscan (reports.filter (qualifies cutoff)).length
          (nbOf d ((reports.filter (qualifies cutoff)).map
            (fun r => (r.lat, r.lon))))).1 m := by
    apply dbscan_cluster_size
    · intro i j hi hj
      exact nbOf_symm d _ hsymd i j (by rwa [hlen]) (by rwa [hlen])
    · intro i hi
      exact nbOf_refl d _ hrefld i (by rwa [hlen])
    · intro i j hj
      have := nbOf_sub d _ i j hj
      rwa [hlen] at this
    · exact nbOf_nodup d _
  have hnoop : (dbscan (reports.filter (qualifies cutoff)).length
      (nbOf d ((reports.filter (qualifies cutoff)).map
        (fun r => (r.lat, r.lon))))).2 = 0 →
      recompute_outbreaks d dM setEnum cutoff now nextId reports obs =
        (obs, 0, 0) := by
    intro hk
    rw [recompute_outbreaks_eq]
    by_cases hq : (reports.filter (qualifies cutoff)).isEmpty
    · rw [if_pos hq]
    · rw [if_neg hq, recomputeClusters_zero d dM setEnum now _ obs nextId hk]
  refine ⟨?_, ?_, ?_, ?_⟩
  · intro hq
    rw [recompute_outbreaks_eq, if_pos (by rw [hq]; rfl)]
  · intro hall
    apply hnoop
    by_contra hk
    obtain ⟨j, hj, hj0⟩ := memberCount_exists _ _ _
      (hsize 0 (Nat.pos_of_ne_zero hk))
    rw [hall j] at hj0
    norm_num at hj0
  · intro h2
    apply hnoop
    have hnc : ∀ i, i < (reports.filter (qualifies cutoff)).length →
        ¬isCore (nbOf d ((reports.filter (qualifies cutoff)).map
          (fun r => (r.lat, r.lon)))) i := by
      intro i _ hcore
      unfold isCore at hcore
      have hle : (nbOf d ((reports.filter (qualifies cutoff)).map
          (fun r => (r.lat, r.lon))) i).length ≤
          ((reports.filter (qualifies cutoff)).map
            (fun r => (r.lat, r.lon))).length := by
        unfold nbOf
        exact le_trans (List.length_filter_le _ _)
          (le_of_eq (List.length_range _))
      rw [hlen, h2] at hle
      omega
    show (dbscan _ _).2 = 0
    unfold dbscan
    rw [dbscanGo_nocore _ _ hnc 0 _ 0]
  · intro ob hob
    rw [recompute_outbreaks_eq] at hob
    by_cases hq : (reports.filter (qualifies cutoff)).isEmpty
    · rw [if_pos hq] at hob
      exact Or.inl hob
    · rw [if_neg hq] at hob
      rw [recomputeClusters_eq] at hob
      refine foldl_process_preserves d dM setEnum now _ _ obs _ _
        (fun x hx => Or.inl hx) ?_ ob hob
      intro m hm
      rw [clusterStats_num]
      exact hsize m (List.mem_range.mp hm)

/-- Witness for C4 at a concrete input: an empty report set is a no-op. -/
theorem C4_witness :
    recompute_outbreaks (fun _ _ => 0) (fun _ _ => 0) (fun l => l) 0 0 7 []
      [] = ([], 0, 0) :=
  (C4_min_cluster_size (fun _ _ => 0) (fun _ _ => 0) (fun l => l) 0 0 7 [] []
    (fun _ _ => rfl) (fun _ => rfl)).1 rfl

end AlienBuster
